import Mathlib

/-!
# Blancoleontext.io dashboard: templates, daily instances and expiry rules

A shallow embedding of the storage and rule logic of `src/dashboard.js`
(`class DashboardApp`, `class LocalDatabase`).

Conventions of the embedding.

* The two `localStorage` entries hold JSON arrays; the `Store` below holds the
  parsed arrays. Every operation of the source reads a whole array, works on it
  and writes a whole array back, which is a function `Store → Store` here.
* JavaScript strings are Lean `String`s. `===` on strings is equality; `<` and
  `>` on strings compare UTF-16 code units lexicographically (`jsLt`).
* JavaScript numbers that are integers by construction (`Date.now()`, minutes
  of the day, results of `parseInt`) are `Nat`/`Int`; `NaN` is `none`. Gains and
  instance ids (`Date.now() + Math.random()`) are rationals.
* `getStats` is the one place where the source computes with gains: there a
  number is a double (`JsNumber`), a stored gain is read as the nearest double
  (`toDouble`) and `+` rounds its exact result to a double (`jsAdd`).
* `null`/`undefined` fields are `none`.
-/

namespace Dashboard

/-! ## JavaScript primitives used by the source -/

/-- UTF-16 code units of one character (a surrogate pair above the BMP). -/
def utf16 (c : Char) : List Nat :=
  if c.toNat < 0x10000 then [c.toNat]
  else [0xD800 + (c.toNat - 0x10000) / 0x400, 0xDC00 + (c.toNat - 0x10000) % 0x400]

/-- UTF-16 code units of a list of characters. -/
def unitsOf : List Char → List Nat
  | [] => []
  | c :: cs => utf16 c ++ unitsOf cs

/-- The sequence of UTF-16 code units of a string, which is what JavaScript compares. -/
def codeUnits (s : String) : List Nat := unitsOf s.toList

/-- Lexicographic "less than" on code-unit sequences (a proper prefix is smaller). -/
def lexLt : List Nat → List Nat → Bool
  | [], [] => false
  | [], _ :: _ => true
  | _ :: _, [] => false
  | a :: as, b :: bs => decide (a < b) || (decide (a = b) && lexLt as bs)

/-- JavaScript `a < b` on two strings. -/
def jsLt (a b : String) : Bool := lexLt (codeUnits a) (codeUnits b)

/-- JavaScript `a > b` on two strings. -/
def jsGt (a b : String) : Bool := jsLt b a

/-- `str.split(':')`, on the characters of the string: the pieces between colons. -/
def splitColon : List Char → List (List Char)
  | [] => [[]]
  | c :: cs =>
    if c = ':' then [] :: splitColon cs
    else
      match splitColon cs with
      | [] => [[c]]
      | p :: ps => (c :: p) :: ps

/-- White space that `parseInt` skips at the start of its argument
(ECMAScript `WhiteSpace` and `LineTerminator`). -/
def isJsSpace (c : Char) : Bool :=
  let n := c.toNat
  n = 0x09 || n = 0x0A || n = 0x0B || n = 0x0C || n = 0x0D || n = 0x20 || n = 0xA0
    || n = 0x1680 || (0x2000 ≤ n && n ≤ 0x200A) || n = 0x2028 || n = 0x2029
    || n = 0x202F || n = 0x205F || n = 0x3000 || n = 0xFEFF

/-- Value of a character as a digit of the given radix (10 or 16). -/
def digitOf (radix : Nat) (c : Char) : Option Nat :=
  let n := c.toNat
  if 48 ≤ n ∧ n ≤ 57 then some (n - 48)
  else if radix = 16 ∧ 97 ≤ n ∧ n ≤ 102 then some (n - 87)
  else if radix = 16 ∧ 65 ≤ n ∧ n ≤ 70 then some (n - 55)
  else none

/-- Reads the longest prefix of digits; `acc` is the value read so far and the
flag records whether a digit was read. -/
def readDigits (radix : Nat) : List Char → Nat → Bool → Option Nat
  | [], acc, seen => if seen then some acc else none
  | c :: cs, acc, seen =>
    match digitOf radix c with
    | some d => readDigits radix cs (acc * radix + d) true
    | none => if seen then some acc else none

/-- `parseInt(str)` with no radix argument: leading white space is skipped, a
sign is read, a `0x`/`0X` prefix selects radix 16, and the longest prefix of
digits is the value; `none` is `NaN`. The value is the exact integer (a double
holds it exactly below `2^53`). -/
def parseInt (cs : List Char) : Option Int :=
  let s := cs.dropWhile isJsSpace
  let (neg, s) :=
    match s with
    | '-' :: r => (true, r)
    | '+' :: r => (false, r)
    | _ => (false, s)
  let (radix, s) :=
    match s with
    | '0' :: 'x' :: r => (16, r)
    | '0' :: 'X' :: r => (16, r)
    | _ => (10, s)
  match readDigits radix s 0 false with
  | none => none
  | some v => some (if neg then - (v : Int) else (v : Int))

/-! ## Calendar dates and `Date.prototype.getDay` -/

/-- The three numeric fields of a string of the shape `dddd-dd-dd` (decimal
digits, zero padded): year, month, day. Any other string has none. -/
def isoFields (s : String) : Option (Nat × Nat × Nat) :=
  match s.toList with
  | [y1, y2, y3, y4, s1, m1, m2, s2, d1, d2] =>
    if s1 = '-' ∧ s2 = '-' then
      match digitOf 10 y1, digitOf 10 y2, digitOf 10 y3, digitOf 10 y4,
            digitOf 10 m1, digitOf 10 m2, digitOf 10 d1, digitOf 10 d2 with
      | some a, some b, some c, some d, some e, some f, some g, some h =>
        some (1000 * a + 100 * b + 10 * c + d, 10 * e + f, 10 * g + h)
      | _, _, _, _, _, _, _, _ => none
    else none
  | _ => none

/-- Calendar order on (year, month, day). -/
def dayBefore (a b : Nat × Nat × Nat) : Prop :=
  a.1 < b.1 ∨ (a.1 = b.1 ∧ (a.2.1 < b.2.1 ∨ (a.2.1 = b.2.1 ∧ a.2.2 < b.2.2)))

instance (a b : Nat × Nat × Nat) : Decidable (dayBefore a b) := by
  unfold dayBefore; infer_instance

/-- Gregorian leap years. -/
def isLeapYear (y : Nat) : Bool := (y % 4 = 0 && y % 100 ≠ 0) || y % 400 = 0

/-- Number of days of month `m` (1 to 12) of year `y`; 0 for any other `m`. -/
def daysInMonth (y m : Nat) : Nat :=
  match m with
  | 1 => 31 | 2 => if isLeapYear y then 29 else 28 | 3 => 31 | 4 => 30
  | 5 => 31 | 6 => 30 | 7 => 31 | 8 => 31 | 9 => 30 | 10 => 31 | 11 => 30 | 12 => 31
  | _ => 0

/-- A well-formed zero-padded `YYYY-MM-DD` string naming a day of the
(proleptic Gregorian) calendar, as its (year, month, day). -/
def calendarDay (s : String) : Option (Nat × Nat × Nat) :=
  match isoFields s with
  | some (y, m, d) => if 1 ≤ d ∧ d ≤ daysInMonth y m then some (y, m, d) else none
  | none => none

/-- Day of the week of a calendar day, 0 = Sunday to 6 = Saturday. The month
offsets are the days before each month modulo 7 for a year counted from March;
the year is shifted by one 400-year cycle (a whole number of weeks) so that
January and February of year 0 stay in the naturals. -/
def dayOfWeek (c : Nat × Nat × Nat) : Nat :=
  let y := c.1 + 400 - (if c.2.1 < 3 then 1 else 0)
  let t := [0, 3, 2, 5, 0, 3, 5, 1, 4, 6, 2, 4].getD (c.2.1 - 1) 0
  (y + y / 4 - y / 100 + y / 400 + t + c.2.2) % 7

/-- `new Date(dateStr + "T12:00:00").getDay()`: noon local time of the day
named by `dateStr`, hence that day's weekday. `none` is `NaN` (Invalid Date).
A string that is not a calendar day in the ISO format is left to the engine's
fallback parser by ECMAScript; the model answers `NaN` there. -/
def getDay (dateStr : String) : Option Nat :=
  (calendarDay dateStr).map dayOfWeek

/-! ## Data model -/

/-- A template ("Mejora"), as stored under `blancoLeonMejoras`. -/
structure Template where
  id : Nat
  title : String
  limits : String
  gain : ℚ
  recurrence : Option (List Nat)
  endDate : Option String
  deriving DecidableEq, Repr

/-- A daily instance (task), as stored under `blancoLeonTasks`. -/
structure Instance where
  id : ℚ
  templateId : Nat
  title : String
  limits : String
  gain : ℚ
  status : String
  date : String
  dateCompleted : Option String
  deriving DecidableEq, Repr

/-- The two persisted collections. -/
structure Store where
  mejoras : List Template
  tasks : List Instance
  deriving DecidableEq, Repr

/-! ## `DashboardApp`: time limit logic -/

/-- The test of `failPastPendingTasks`:
`task.date < this.today && task.status === 'pending'`. -/
def isPastPending (today : String) (task : Instance) : Bool :=
  jsLt task.date today && decide (task.status = "pending")

/-- `DashboardApp.failPastPendingTasks`: every pending task of a previous day
is marked failed; the array is saved when something changed. -/
def failPastPendingTasks (today : String) (s : Store) : Store :=
  let allTasks := s.tasks
  let updated := allTasks.map fun task =>
    if isPastPending today task then { task with status := "failed" } else task
  let changed := allTasks.any (isPastPending today)
  if changed then { s with tasks := updated } else s

/-- `DashboardApp.parseEndTime`: `none` is the source's `null`; `some none` is
`NaN` (a piece without digits); `some (some v)` is `hours * 60 + minutes`. -/
def parseEndTime (limitStr : String) : Option (Option Int) :=
  if limitStr = "" then none
  else
    match splitColon limitStr.toList with
    | [h, m] =>
      some (match parseInt h, parseInt m with
        | some hours, some minutes => some (hours * 60 + minutes)
        | _, _ => none)
    | _ => none

/-- The test inside the `forEach` of `checkTaskLimits`, for one task of
`allTasks`: it is one of `todayTasks`, pending, not `'Sin límite'`, and
`endTimeVal !== null && currentTimeVal > endTimeVal`. -/
def isOverLimit (today : String) (currentTimeVal : Nat) (task : Instance) : Bool :=
  decide (task.date = today) && decide (task.status = "pending") &&
    !decide (task.limits = "Sin límite") &&
    match parseEndTime task.limits with
    | some (some endTimeVal) => decide (endTimeVal < (currentTimeVal : Int))
    | _ => false

/-- `DashboardApp.checkTaskLimits`: `currentTimeVal` is
`currentHour * 60 + currentMinute` in La Paz. The two renders after a change
only read the store (a change implies a task dated today exists, so
`renderPrincipalView` does not generate). -/
def checkTaskLimits (today : String) (currentTimeVal : Nat) (s : Store) : Store :=
  let allTasks := s.tasks
  let updated := allTasks.map fun task =>
    if isOverLimit today currentTimeVal task then { task with status := "failed" } else task
  let changed := allTasks.any (isOverLimit today currentTimeVal)
  if changed then { s with tasks := updated } else s

/-! ## `LocalDatabase`: daily tasks -/

/-- `LocalDatabase.getDailyTasks`. -/
def getDailyTasks (dateStr : String) (s : Store) : List Instance :=
  s.tasks.filter fun t => decide (t.date = dateStr)

/-- `t.recurrence.includes(dayIndex)`: stored entries are numbers, and `NaN`
is equal to none of them. -/
def includesDay (recurrence : List Nat) (dayIndex : Option Nat) : Bool :=
  match dayIndex with
  | some k => recurrence.contains k
  | none => false

/-- The recurrence and end-date tests shared by `generateDailyTasks` and
`syncDailyTasks`. An array is truthy, also when empty; the end date is truthy
when it is a non-empty string. -/
def passesFilters (dayIndex : Option Nat) (dateStr : String) (t : Template) : Bool :=
  let recurrenceFails :=
    match t.recurrence with
    | some r => !includesDay r dayIndex
    | none => false
  let endDateFails :=
    match t.endDate with
    | some e => !decide (e = "") && jsGt dateStr e
    | none => false
  if recurrenceFails then false
  else if endDateFails then false
  else true

/-- The object literal built for a template by both generators. -/
def newTask (id : ℚ) (dateStr : String) (t : Template) : Instance :=
  { id := id
    templateId := t.id
    title := t.title
    limits := t.limits
    gain := t.gain
    status := "pending"
    date := dateStr
    dateCompleted := none }

/-- The `.map(t => ({ id: Date.now() + Math.random(), ... }))` of both
generators: `newId k` is the value of `Date.now() + Math.random()` in the
callback for the element at position `k`. -/
def mapNewTasks (newId : Nat → ℚ) (dateStr : String) : Nat → List Template → List Instance
  | _, [] => []
  | k, t :: ts => newTask (newId k) dateStr t :: mapNewTasks newId dateStr (k + 1) ts

/-- `LocalDatabase.generateDailyTasks`: the returned `newTasks` and the store
after the write. -/
def generateDailyTasks (newId : Nat → ℚ) (dateStr : String) (s : Store) :
    List Instance × Store :=
  let templates := s.mejoras
  let tasks := s.tasks
  let dayIndex := getDay dateStr
  let newTasks := mapNewTasks newId dateStr 0 (templates.filter (passesFilters dayIndex dateStr))
  let updatedTasks := tasks ++ newTasks
  (newTasks, { s with tasks := updatedTasks })

/-- The `filter` callback of `syncDailyTasks`. -/
def isMissing (todayTasks : List Instance) (dayIndex : Option Nat) (dateStr : String)
    (tpl : Template) : Bool :=
  if todayTasks.any (fun t => decide (t.templateId = tpl.id)) then false
  else passesFilters dayIndex dateStr tpl

/-- `LocalDatabase.syncDailyTasks`. -/
def syncDailyTasks (newId : Nat → ℚ) (dateStr : String) (s : Store) : Store :=
  let templates := s.mejoras
  let allTasks := s.tasks
  let todayTasks := allTasks.filter fun t => decide (t.date = dateStr)
  let dayIndex := getDay dateStr
  let missingTemplates := templates.filter (isMissing todayTasks dayIndex dateStr)
  if missingTemplates.length > 0 then
    let newTasks := mapNewTasks newId dateStr 0 missingTemplates
    { s with tasks := allTasks ++ newTasks }
  else s

/-- The mutation of `updateTaskStatus` on the task that `find` returns, the
first one with the given id. -/
def markFirst (id : ℚ) (status dateStr : String) : List Instance → List Instance
  | [] => []
  | t :: ts =>
    if t.id = id then { t with status := status, dateCompleted := some dateStr } :: ts
    else t :: markFirst id status dateStr ts

/-- `LocalDatabase.updateTaskStatus`. -/
def updateTaskStatus (id : ℚ) (status dateStr : String) (s : Store) : Store :=
  match s.tasks.find? (fun t => decide (t.id = id)) with
  | some _ => { s with tasks := markFirst id status dateStr s.tasks }
  | none => s

/-! ## `LocalDatabase`: templates and statistics -/

/-- The `data` object that `handleSaveMejora` and `seedDefaults` pass to the
store: a template without its id. Both callers give `title`, `limits` and
`gain`. For `recurrence` and `endDate` the outer `none` is a key left out
(`seedDefaults`); the form always gives both keys, `recurrence` as an array and
`endDate` as `null` (`some none`) or a string. -/
structure MejoraData where
  title : String
  limits : String
  gain : ℚ
  recurrence : Option (List Nat)
  endDate : Option (Option String)
  deriving DecidableEq, Repr

/-- `LocalDatabase.getMejoras`. -/
def getMejoras (s : Store) : List Template := s.mejoras

/-- `LocalDatabase.getMejora`: `none` is the `undefined` that `find` returns. -/
def getMejora (id : Nat) (s : Store) : Option Template :=
  (getMejoras s).find? fun m => decide (m.id = id)

/-- `LocalDatabase.addMejora`: `now` is the reading of `Date.now()`; the new
item and the store after the write. -/
def addMejora (now : Nat) (data : MejoraData) (s : Store) : Template × Store :=
  let list := getMejoras s
  let newItem : Template :=
    { id := now, title := data.title, limits := data.limits, gain := data.gain,
      recurrence := data.recurrence, endDate := data.endDate.join }
  (newItem, { s with mejoras := list ++ [newItem] })

/-- The assignment `list[index] = { ...list[index], ...data }` of `updateMejora`
at the index that `findIndex` returns, the first template with the given id:
the keys of `data` replace the stored values, a key left out keeps them. -/
def mergeFirst (id : Nat) (data : MejoraData) : List Template → List Template
  | [] => []
  | m :: ms =>
    if m.id = id then
      { id := m.id, title := data.title, limits := data.limits, gain := data.gain,
        recurrence :=
          match data.recurrence with
          | some r => some r
          | none => m.recurrence
        endDate :=
          match data.endDate with
          | some e => e
          | none => m.endDate } :: ms
    else m :: mergeFirst id data ms

/-- `LocalDatabase.updateMejora`: nothing is written when `findIndex` returns -1. -/
def updateMejora (id : Nat) (data : MejoraData) (s : Store) : Store :=
  let list := getMejoras s
  match list.findIdx? (fun m => decide (m.id = id)) with
  | some _ => { s with mejoras := mergeFirst id data list }
  | none => s

/-- `LocalDatabase.deleteMejora`. The source compares `String(m.id)` with
`String(id)`; on two numbers the decimal strings differ exactly when the
numbers do. -/
def deleteMejora (id : Nat) (s : Store) : Store :=
  let list := getMejoras s
  let newList := list.filter fun m => !decide (m.id = id)
  { s with mejoras := newList }

/-- `DashboardApp.handleDeleteMejora`, on the number that `parseFloat` reads
back from the card's `data-id`; the render that follows only reads. -/
def handleDeleteMejora (id : Nat) (s : Store) : Store :=
  deleteMejora id s

/-- `DashboardApp.seedDefaults`: `now₁` and `now₂` are the readings of
`Date.now()` in the two `addMejora` calls of the `forEach`. -/
def seedDefaults (now₁ now₂ : Nat) (newId : Nat → ℚ) (today : String) (s : Store) : Store :=
  let s₁ := (addMejora now₁
    { title := "Estudiar Estadistica", limits := "Limites: 8:00 - 9:00", gain := 1 / 2,
      recurrence := none, endDate := none } s).2
  let s₂ := (addMejora now₂
    { title := "Leer Libro", limits := "Limites: 20:00 - 21:00", gain := 1,
      recurrence := none, endDate := none } s₁).2
  (generateDailyTasks newId today s₂).2

/-- What `DashboardApp.renderPrincipalView` writes: when no task is dated
today it generates the tasks of today from the templates, or seeds the
defaults when there is no template; otherwise it only reads. The clock readings
and ids are those it draws when it writes. -/
def renderPrincipalView (now₁ now₂ : Nat) (newId : Nat → ℚ) (today : String)
    (s : Store) : Store :=
  let dailyTasks := getDailyTasks today s
  if dailyTasks.length = 0 then
    let templates := getMejoras s
    if templates.length > 0 then (generateDailyTasks newId today s).2
    else seedDefaults now₁ now₂ newId today s
  else s

/-- `DashboardApp.handleMarkTask`, on the number that `parseFloat` reads back
from the card's `data-id`: the status update, then the two renders, of which
`renderStats` only reads. -/
def handleMarkTask (now₁ now₂ : Nat) (newId : Nat → ℚ) (today : String) (id : ℚ)
    (s : Store) : Store :=
  renderPrincipalView now₁ now₂ newId today (updateTaskStatus id "completed" today s)

/-- A JavaScript number: a finite double as the rational it is, the two
infinities, or `NaN`. The two zeros are one value here; no operation of the
source tells them apart. -/
inductive JsNumber where
  | num (q : ℚ)
  | posInf
  | negInf
  | nan
  deriving DecidableEq, Repr

/-- Rounding to the nearest integer, a tie going to the even one. -/
def roundHalfEven (q : ℚ) : ℤ :=
  let f := ⌊q⌋
  if q - f < 1 / 2 then f
  else if 1 / 2 < q - f then f + 1
  else if f % 2 = 0 then f
  else f + 1

/-- The double nearest to a real value (IEEE 754 binary64, round to nearest,
ties to even): a significand of 53 bits at the exponent of the value, the
fixed exponent -1074 in the subnormal range, an infinity from `2^1024 - 2^970`
on. It is what reading a JSON number text gives and what every arithmetic
operation applies to its exact result. -/
def toDouble (x : ℚ) : JsNumber :=
  if x = 0 then .num 0
  else
    let e : ℤ := max (Int.log 2 |x| - 52) (-1074)
    let m : ℤ := roundHalfEven (|x| / 2 ^ e)
    let r : ℚ := m * 2 ^ e
    if 2 ^ 1024 ≤ r then (if x < 0 then .negInf else .posInf)
    else .num (if x < 0 then -r else r)

/-- JavaScript `a + b` on two numbers. -/
def jsAdd : JsNumber → JsNumber → JsNumber
  | .num a, .num b => toDouble (a + b)
  | .nan, _ => .nan
  | _, .nan => .nan
  | .posInf, .negInf => .nan
  | .negInf, .posInf => .nan
  | .posInf, _ => .posInf
  | .negInf, _ => .negInf
  | _, .posInf => .posInf
  | _, .negInf => .negInf

/-- `parseFloat(x.toFixed(2))`: `toFixed` takes the sign aside and picks the
integer `n` with `n / 100` nearest to the exact magnitude of the double, the
larger one of two candidates; `parseFloat` reads the digits back as a double.
From `10^21` on `toFixed` prints the number itself, which is what the formula
gives as well, such a double being an integer. `NaN` and the infinities print
and read back as themselves. -/
def toFixed2 : JsNumber → JsNumber
  | .num x =>
    if x < 0 then toDouble (- ((⌊(-x) * 100 + 1 / 2⌋ : ℤ) : ℚ) / 100)
    else toDouble (((⌊x * 100 + 1 / 2⌋ : ℤ) : ℚ) / 100)
  | v => v

/-- The two figures that `getStats` returns. -/
structure Stats where
  totalGain : JsNumber
  todayGain : JsNumber
  deriving DecidableEq, Repr

/-- `LocalDatabase.getStats`: the returned object and the store, which is only
read. `JSON.parse` reads each stored gain as a double and every `sum + t.gain`
is a double addition. -/
def getStats (todayStr : String) (s : Store) : Stats × Store :=
  let tasks := s.tasks
  let totalGain :=
    (tasks.filter fun t => decide (t.status = "completed")).foldl
      (fun sum t => jsAdd sum (toDouble t.gain)) (.num 0)
  let todayGain :=
    (tasks.filter fun t => decide (t.status = "completed") && decide (t.date = todayStr)).foldl
      (fun sum t => jsAdd sum (toDouble t.gain)) (.num 0)
  ({ totalGain := toFixed2 totalGain, todayGain := toFixed2 todayGain }, s)

/-- The zero-padded two-digit decimal numeral of a number below 100. -/
def twoDigits (n : Nat) : List Char :=
  [Char.ofNat (48 + n / 10), Char.ofNat (48 + n % 10)]

/-- The zero-padded string `hh:mm`. -/
def hhmm (h m : Nat) : String :=
  String.mk (twoDigits h ++ ':' :: twoDigits m)

/-! ## The criteria of the specification, in its own words -/

/-- JavaScript `a <= b` on two strings (defined by the language as not `b < a`). -/
def jsLe (a b : String) : Bool := !jsLt b a

/-- The recurrence criterion of the specification: the recurrence set is absent
or contains the weekday of the date. -/
def recurrenceAllows (dateStr : String) (t : Template) : Prop :=
  t.recurrence = none ∨ ∃ r w, t.recurrence = some r ∧ getDay dateStr = some w ∧ w ∈ r

/-- The end-date criterion of the specification: the end date is absent (`null`,
`undefined`, or the empty string of an unset date input) or `date <= endDate`. -/
def endDateAllows (dateStr : String) (t : Template) : Prop :=
  t.endDate = none ∨ t.endDate = some "" ∨ ∃ e, t.endDate = some e ∧ jsLe dateStr e = true

/-- The templates that `syncDailyTasks(dateStr)` is to materialise according to
the specification: no stored instance dated `dateStr` carries the template's
id, and the recurrence and end-date criteria hold. -/
def survives (dateStr : String) (tasks : List Instance) (t : Template) : Prop :=
  (∀ i ∈ tasks, i.date = dateStr → i.templateId ≠ t.id) ∧
    recurrenceAllows dateStr t ∧ endDateAllows dateStr t

/-- Number of instances of a list that carry the given template id. -/
def countFor (templateId : Nat) (l : List Instance) : Nat :=
  (l.filter fun i => decide (i.templateId = templateId)).length

/-- Number of instances of a list for the pair (template id, date). -/
def countForOn (templateId : Nat) (dateStr : String) (l : List Instance) : Nat :=
  (l.filter fun i => decide (i.templateId = templateId) && decide (i.date = dateStr)).length

/-! ## Sample data for the concrete checks -/

/-- A pending task dated 2024-01-01 with a single-time limit. -/
def pendingTask : Instance :=
  { id := 1, templateId := 10, title := "Leer Libro", limits := "10:00", gain := 1,
    status := "pending", date := "2024-01-01", dateCompleted := none }

/-- A pending task dated 2024-01-02 with the window limit `09:00 - 10:00`. -/
def windowTask : Instance :=
  { id := 2, templateId := 11, title := "Estudiar", limits := "09:00 - 10:00", gain := 1,
    status := "pending", date := "2024-01-02", dateCompleted := none }

/-- A failed task dated 2024-01-01. -/
def failedTask : Instance :=
  { id := 3, templateId := 10, title := "Leer Libro", limits := "10:00", gain := 1,
    status := "failed", date := "2024-01-01", dateCompleted := none }

/-- A completed task dated 2024-01-02. -/
def completedTask : Instance :=
  { id := 4, templateId := 10, title := "Leer Libro", limits := "10:00", gain := 1,
    status := "completed", date := "2024-01-02", dateCompleted := some "2024-01-02" }

/-- A template with no recurrence and no end date. -/
def dailyTemplate : Template :=
  { id := 10, title := "Leer Libro", limits := "Sin límite", gain := 1,
    recurrence := none, endDate := none }

/-- A template for Mondays and Tuesdays that ends on 2024-01-05. -/
def weeklyTemplate : Template :=
  { id := 11, title := "Estudiar", limits := "09:00 - 10:00", gain := 2,
    recurrence := some [1, 2], endDate := some "2024-01-05" }

/-- The data of a template without limit, as the form submits it. -/
def libroData : MejoraData :=
  { title := "Leer Libro", limits := "Sin límite", gain := 1,
    recurrence := some [0, 1, 2, 3, 4, 5, 6], endDate := some none }

/-- A completed task dated 2024-01-01 with gain 2. -/
def completedYesterday : Instance :=
  { id := 5, templateId := 11, title := "Estudiar", limits := "Sin límite", gain := 2,
    status := "completed", date := "2024-01-01", dateCompleted := some "2024-01-01" }

/-- A pending task dated 2024-01-02 whose limit is a time followed by a letter. -/
def looseTask : Instance :=
  { id := 6, templateId := 10, title := "Leer Libro", limits := "10:00h", gain := 1,
    status := "pending", date := "2024-01-02", dateCompleted := none }

/-- A pending task dated 2024-01-02 whose limit starts with words. -/
def wordyTask : Instance :=
  { id := 7, templateId := 10, title := "Leer Libro", limits := "a las 10:00", gain := 1,
    status := "pending", date := "2024-01-02", dateCompleted := none }

/-- Two templates with ids 10 and 11 and one stored task, dated 2024-01-01. -/
def guardedStore : Store :=
  { mejoras := [dailyTemplate, weeklyTemplate], tasks := [failedTask] }

/-- A completed task dated 2024-01-02 whose gain is the double nearest to
0.005, which is what the JSON text `0.005` reads as. -/
def smallGainTask : Instance :=
  { id := 8, templateId := 10, title := "Leer Libro", limits := "Sin límite",
    gain := 5764607523034235 / 1152921504606846976,
    status := "completed", date := "2024-01-02", dateCompleted := some "2024-01-02" }

/-! ## Per-task form of the two expiry rules -/

/-- What `failPastPendingTasks` does to one task. -/
def failPastOne (today : String) (task : Instance) : Instance :=
  if isPastPending today task then { task with status := "failed" } else task

/-- What `checkTaskLimits` does to one task. -/
def checkLimitOne (today : String) (currentTimeVal : Nat) (task : Instance) : Instance :=
  if isOverLimit today currentTimeVal task then { task with status := "failed" } else task

/-! ## Auxiliary facts -/

theorem lexLt_irrefl (l : List Nat) : lexLt l l = false := by
  induction l with
  | nil => rfl
  | cons a as ih => simp [lexLt, ih]

theorem jsLt_irrefl (a : String) : jsLt a a = false := lexLt_irrefl _

theorem map_ite_of_any_false {α : Type} (p : α → Bool) (g : α → α) (l : List α)
    (h : l.any p = false) : l.map (fun t => if p t then g t else t) = l := by
  induction l with
  | nil => rfl
  | cons a as ih =>
    simp only [List.any_cons, Bool.or_eq_false_iff] at h
    simp [h.1, ih h.2]

theorem failPastPendingTasks_eq (today : String) (s : Store) :
    failPastPendingTasks today s = { s with tasks := s.tasks.map (failPastOne today) } := by
  unfold failPastPendingTasks
  by_cases h : s.tasks.any (isPastPending today) = true
  · simp only [h, if_true]; rfl
  · have h' : s.tasks.any (isPastPending today) = false := by simpa using h
    have hm := map_ite_of_any_false (isPastPending today)
      (fun task => { task with status := "failed" }) s.tasks h'
    simp only [h', Bool.false_eq_true, if_false]
    unfold failPastOne
    rw [hm]

theorem checkTaskLimits_eq (today : String) (now : Nat) (s : Store) :
    checkTaskLimits today now s = { s with tasks := s.tasks.map (checkLimitOne today now) } := by
  unfold checkTaskLimits
  by_cases h : s.tasks.any (isOverLimit today now) = true
  · simp only [h, if_true]; rfl
  · have h' : s.tasks.any (isOverLimit today now) = false := by simpa using h
    have hm := map_ite_of_any_false (isOverLimit today now)
      (fun task => { task with status := "failed" }) s.tasks h'
    simp only [h', Bool.false_eq_true, if_false]
    unfold checkLimitOne
    rw [hm]

theorem isPastPending_status {today : String} {t : Instance}
    (h : isPastPending today t = true) : jsLt t.date today = true ∧ t.status = "pending" := by
  simpa [isPastPending] using h

theorem isOverLimit_status {today : String} {now : Nat} {t : Instance}
    (h : isOverLimit today now t = true) : t.date = today ∧ t.status = "pending" := by
  unfold isOverLimit at h
  simp only [Bool.and_eq_true, decide_eq_true_eq] at h
  exact ⟨h.1.1.1, h.1.1.2⟩

theorem failed_ne_pending : ("failed" : String) ≠ "pending" := by decide

theorem failPastOne_of_not_pending (today : String) (t : Instance)
    (h : t.status ≠ "pending") : failPastOne today t = t := by
  unfold failPastOne
  split
  · next hp => exact absurd (isPastPending_status hp).2 h
  · rfl

theorem checkLimitOne_of_not_pending (today : String) (now : Nat) (t : Instance)
    (h : t.status ≠ "pending") : checkLimitOne today now t = t := by
  unfold checkLimitOne
  split
  · next hp => exact absurd (isOverLimit_status hp).2 h
  · rfl

theorem failPastOne_idem (today : String) (t : Instance) :
    failPastOne today (failPastOne today t) = failPastOne today t := by
  by_cases hp : isPastPending today t = true
  · have : failPastOne today t = { t with status := "failed" } := by simp [failPastOne, hp]
    rw [this]
    exact failPastOne_of_not_pending _ _ failed_ne_pending
  · have : failPastOne today t = t := by simp [failPastOne, hp]
    rw [this, this]

theorem checkLimitOne_idem (today : String) (now : Nat) (t : Instance) :
    checkLimitOne today now (checkLimitOne today now t) = checkLimitOne today now t := by
  by_cases hp : isOverLimit today now t = true
  · have : checkLimitOne today now t = { t with status := "failed" } := by
      simp [checkLimitOne, hp]
    rw [this]
    exact checkLimitOne_of_not_pending _ _ _ failed_ne_pending
  · have : checkLimitOne today now t = t := by simp [checkLimitOne, hp]
    rw [this, this]

theorem failPast_checkLimit_comm (today : String) (now : Nat) (t : Instance) :
    checkLimitOne today now (failPastOne today t) = failPastOne today (checkLimitOne today now t) := by
  by_cases hp : isPastPending today t = true
  · have h1 : failPastOne today t = { t with status := "failed" } := by simp [failPastOne, hp]
    have hne : t.date ≠ today := by
      intro he
      have := (isPastPending_status hp).1
      rw [he, jsLt_irrefl] at this
      exact Bool.false_ne_true this
    have h2 : isOverLimit today now t = false := by
      cases h : isOverLimit today now t with
      | false => rfl
      | true => exact absurd (isOverLimit_status h).1 hne
    have h3 : checkLimitOne today now t = t := by simp [checkLimitOne, h2]
    rw [h3, h1]
    exact checkLimitOne_of_not_pending _ _ _ failed_ne_pending
  · have h1 : failPastOne today t = t := by simp [failPastOne, hp]
    rw [h1]
    by_cases ho : isOverLimit today now t = true
    · have h2 : checkLimitOne today now t = { t with status := "failed" } := by
        simp [checkLimitOne, ho]
      rw [h2]
      exact (failPastOne_of_not_pending _ _ failed_ne_pending).symm
    · have h2 : checkLimitOne today now t = t := by simp [checkLimitOne, ho]
      rw [h2, h1]

theorem markFirst_of_find_none (id : ℚ) (status dateStr : String) (l : List Instance)
    (h : l.find? (fun t => decide (t.id = id)) = none) : markFirst id status dateStr l = l := by
  induction l with
  | nil => rfl
  | cons a as ih =>
    rw [List.find?_cons] at h
    by_cases ha : a.id = id
    · simp [ha] at h
    · simp only [ha, decide_False] at h
      simp [markFirst, ha, ih h]

theorem updateTaskStatus_eq (id : ℚ) (status dateStr : String) (s : Store) :
    updateTaskStatus id status dateStr s = { s with tasks := markFirst id status dateStr s.tasks } := by
  unfold updateTaskStatus
  cases h : s.tasks.find? (fun t => decide (t.id = id)) with
  | some _ => rfl
  | none => simp only; rw [markFirst_of_find_none id status dateStr s.tasks h]

theorem markFirst_getElem?_other (id : ℚ) (status dateStr : String) (l : List Instance)
    (k : Nat) (t : Instance) (hk : l[k]? = some t)
    (h : t.id ≠ id ∨ ∃ j u, j < k ∧ l[j]? = some u ∧ u.id = id) :
    (markFirst id status dateStr l)[k]? = some t := by
  induction l generalizing k with
  | nil => simp at hk
  | cons a as ih =>
    by_cases ha : a.id = id
    · cases k with
      | zero =>
        simp only [List.getElem?_cons_zero, Option.some.injEq] at hk
        subst hk
        rcases h with h | ⟨j, u, hj, _, _⟩
        · exact absurd ha h
        · omega
      | succ k => simpa [markFirst, ha] using hk
    · cases k with
      | zero => simpa [markFirst, ha] using hk
      | succ k =>
        simp only [markFirst, ha, if_false, List.getElem?_cons_succ] at hk ⊢
        apply ih k hk
        rcases h with h | ⟨j, u, hj, hu, hid⟩
        · exact Or.inl h
        · cases j with
          | zero =>
            simp only [List.getElem?_cons_zero, Option.some.injEq] at hu
            subst hu
            exact absurd hid ha
          | succ j =>
            exact Or.inr ⟨j, u, by omega, by simpa using hu, hid⟩

theorem markFirst_getElem?_first (id : ℚ) (status dateStr : String) (l : List Instance)
    (k : Nat) (t : Instance) (hk : l[k]? = some t) (hid : t.id = id)
    (hfirst : ∀ j u, j < k → l[j]? = some u → u.id ≠ id) :
    (markFirst id status dateStr l)[k]?
      = some { t with status := status, dateCompleted := some dateStr } := by
  induction l generalizing k with
  | nil => simp at hk
  | cons a as ih =>
    cases k with
    | zero =>
      simp only [List.getElem?_cons_zero, Option.some.injEq] at hk
      subst hk
      simp [markFirst, hid]
    | succ k =>
      have ha : a.id ≠ id := hfirst 0 a (by omega) (by simp)
      simp only [markFirst, ha, if_false, List.getElem?_cons_succ] at hk ⊢
      exact ih k hk (fun j u hj hu => hfirst (j + 1) u (by omega) (by simpa using hu))

theorem window_parses_to_null (a b c d e f g h : Char)
    (ha : a ≠ ':') (hb : b ≠ ':') (hc : c ≠ ':') (hd : d ≠ ':')
    (he : e ≠ ':') (hf : f ≠ ':') (hg : g ≠ ':') (hh : h ≠ ':') :
    parseEndTime (String.mk [a, b, ':', c, d, ' ', '-', ' ', e, f, ':', g, h]) = none := by
  simp [parseEndTime, splitColon, ha, hb, hc, hd, he, hf, hg, hh]

theorem digitOf_ten {c : Char} {v : Nat} (h : digitOf 10 c = some v) :
    v < 10 ∧ utf16 c = [48 + v] := by
  unfold digitOf at h
  simp only at h
  split at h
  · next hc =>
    simp only [Option.some.injEq] at h
    subst h
    refine ⟨by omega, ?_⟩
    unfold utf16
    have : c.toNat < 0x10000 := by omega
    simp only [this, if_true]
    congr 1
    omega
  · simp at h

theorem isoFields_shape {s : String} {x : Nat × Nat × Nat} (h : isoFields s = some x) :
    ∃ a b c d e f g i : Nat, a < 10 ∧ b < 10 ∧ c < 10 ∧ d < 10 ∧ e < 10 ∧ f < 10 ∧ g < 10 ∧
      i < 10 ∧
      codeUnits s = [48 + a, 48 + b, 48 + c, 48 + d, 45, 48 + e, 48 + f, 45, 48 + g, 48 + i] ∧
      x = (1000 * a + 100 * b + 10 * c + d, 10 * e + f, 10 * g + i) := by
  unfold isoFields at h
  split at h
  · next y1 y2 y3 y4 s1 m1 m2 s2 d1 d2 hl =>
    split at h
    · next hsep =>
      split at h
      · next a b c d e f g i h1 h2 h3 h4 h5 h6 h7 h8 =>
        simp only [Option.some.injEq] at h
        refine ⟨a, b, c, d, e, f, g, i, (digitOf_ten h1).1, (digitOf_ten h2).1,
          (digitOf_ten h3).1, (digitOf_ten h4).1, (digitOf_ten h5).1, (digitOf_ten h6).1,
          (digitOf_ten h7).1, (digitOf_ten h8).1, ?_, h.symm⟩
        unfold codeUnits
        rw [hl]
        simp only [unitsOf, (digitOf_ten h1).2, (digitOf_ten h2).2, (digitOf_ten h3).2,
          (digitOf_ten h4).2, (digitOf_ten h5).2, (digitOf_ten h6).2, (digitOf_ten h7).2,
          (digitOf_ten h8).2, hsep.1, hsep.2]
        rfl
      · simp at h
    · simp at h
  · simp at h

theorem jsLt_iff_dayBefore {a b : String} {x y : Nat × Nat × Nat}
    (ha : isoFields a = some x) (hb : isoFields b = some y) :
    jsLt a b = true ↔ dayBefore x y := by
  obtain ⟨a1, a2, a3, a4, a5, a6, a7, a8, p1, p2, p3, p4, p5, p6, p7, p8, hua, rfl⟩ :=
    isoFields_shape ha
  obtain ⟨b1, b2, b3, b4, b5, b6, b7, b8, q1, q2, q3, q4, q5, q6, q7, q8, hub, rfl⟩ :=
    isoFields_shape hb
  unfold jsLt dayBefore
  rw [hua, hub]
  simp only [lexLt, Bool.or_eq_true, Bool.and_eq_true, decide_eq_true_eq, Nat.lt_irrefl,
    false_or, true_and, Bool.false_eq_true, or_false, and_false, decide_True, Bool.true_and,
    decide_False, Bool.false_or]
  omega

theorem mem_mapNewTasks {newId : Nat → ℚ} {d : String} {k : Nat} {l : List Template}
    {i : Instance} (h : i ∈ mapNewTasks newId d k l) :
    ∃ t ∈ l, ∃ j, i = newTask (newId j) d t := by
  induction l generalizing k with
  | nil => simp [mapNewTasks] at h
  | cons a as ih =>
    simp only [mapNewTasks, List.mem_cons] at h
    rcases h with h | h
    · exact ⟨a, List.mem_cons_self _ _, k, h⟩
    · obtain ⟨t, ht, j, hj⟩ := ih h
      exact ⟨t, List.mem_cons_of_mem _ ht, j, hj⟩

theorem mapNewTasks_templateId (newId : Nat → ℚ) (d : String) (k : Nat) (l : List Template) :
    (mapNewTasks newId d k l).map (fun i => i.templateId) = l.map (fun t => t.id) := by
  induction l generalizing k with
  | nil => rfl
  | cons a as ih => simp [mapNewTasks, newTask, ih]

theorem mapNewTasks_filter_date (newId : Nat → ℚ) (d : String) (k : Nat) (l : List Template) :
    (mapNewTasks newId d k l).filter (fun i => decide (i.date = d)) = mapNewTasks newId d k l := by
  induction l generalizing k with
  | nil => rfl
  | cons a as ih => simp [mapNewTasks, newTask, ih]

theorem countFor_mapNewTasks (newId : Nat → ℚ) (d : String) (k : Nat) (l : List Template)
    (x : Nat) :
    countFor x (mapNewTasks newId d k l) = (l.filter fun t => decide (t.id = x)).length := by
  unfold countFor
  induction l generalizing k with
  | nil => rfl
  | cons a as ih =>
    by_cases h : a.id = x
    · simp [mapNewTasks, newTask, h, ih]
    · simp [mapNewTasks, newTask, h, ih]

theorem syncDailyTasks_eq (newId : Nat → ℚ) (d : String) (s : Store) :
    syncDailyTasks newId d s =
      { s with tasks := (s.tasks ++ mapNewTasks newId d 0
          (s.mejoras.filter
            (isMissing (s.tasks.filter fun t => decide (t.date = d)) (getDay d) d))) } := by
  unfold syncDailyTasks
  simp only
  split
  · rfl
  · next h =>
    have : s.mejoras.filter
        (isMissing (s.tasks.filter fun t => decide (t.date = d)) (getDay d) d) = [] := by
      apply List.eq_nil_of_length_eq_zero
      omega
    rw [this]
    simp [mapNewTasks]

theorem calendarDay_isoFields {d : String} {c : Nat × Nat × Nat}
    (h : calendarDay d = some c) : isoFields d = some c := by
  unfold calendarDay at h
  split at h
  · next y m dd hi =>
    split at h
    · simp only [Option.some.injEq] at h
      rw [hi, h]
    · simp at h
  · simp at h

theorem getDay_of_calendarDay {d : String} {c : Nat × Nat × Nat}
    (h : calendarDay d = some c) : getDay d = some (dayOfWeek c) := by
  simp [getDay, h]

theorem includesDay_iff (r : List Nat) (dayIndex : Option Nat) :
    includesDay r dayIndex = true ↔ ∃ w, dayIndex = some w ∧ w ∈ r := by
  cases dayIndex with
  | none => simp [includesDay]
  | some k => simp [includesDay]

theorem passesFilters_iff (d : String) (t : Template) :
    passesFilters (getDay d) d t = true ↔ recurrenceAllows d t ∧ endDateAllows d t := by
  unfold passesFilters recurrenceAllows endDateAllows jsLe jsGt
  rcases hr : t.recurrence with _ | r <;> rcases he : t.endDate with _ | e
  · simp
  · by_cases hem : e = "" <;> simp [hem]
  · simp [includesDay_iff]
  · by_cases hem : e = "" <;> simp [hem, includesDay_iff]

theorem isMissing_iff (d : String) (tasks : List Instance) (t : Template) :
    isMissing (tasks.filter fun i => decide (i.date = d)) (getDay d) d t = true
      ↔ survives d tasks t := by
  unfold isMissing survives
  rw [← passesFilters_iff]
  by_cases h : (tasks.filter fun i => decide (i.date = d)).any
      (fun i => decide (i.templateId = t.id)) = true
  · simp only [h, if_true, Bool.false_eq_true, false_iff, not_and]
    intro hall
    simp only [List.any_eq_true, List.mem_filter, decide_eq_true_eq] at h
    obtain ⟨i, ⟨hi, hd⟩, hid⟩ := h
    exact absurd hid (hall i hi hd)
  · simp only [h, if_false]
    constructor
    · intro hp
      refine ⟨?_, hp⟩
      intro i hi hd hid
      apply h
      simp only [List.any_eq_true, List.mem_filter, decide_eq_true_eq]
      exact ⟨i, ⟨hi, hd⟩, hid⟩
    · exact fun hp => hp.2

theorem filter_id_of_nodup (l : List Template) (hn : (l.map fun t => t.id).Nodup)
    (t : Template) (ht : t ∈ l) : (l.filter fun u => decide (u.id = t.id)) = [t] := by
  induction l with
  | nil => simp at ht
  | cons a as ih =>
    simp only [List.map_cons, List.nodup_cons, List.mem_map, not_exists, not_and] at hn
    rcases List.mem_cons.mp ht with h | h
    · subst h
      have : (as.filter fun u => decide (u.id = t.id)) = [] := by
        rw [List.filter_eq_nil_iff]
        intro u hu
        simpa using hn.1 u hu
      simp [this]
    · have hne : a.id ≠ t.id := fun he => hn.1 t h he.symm
      simp [hne, ih hn.2 h]

theorem length_filter_filter_id (l : List Template) (hn : (l.map fun t => t.id).Nodup)
    (p : Template → Bool) (t : Template) (ht : t ∈ l) :
    ((l.filter p).filter fun u => decide (u.id = t.id)).length = if p t then 1 else 0 := by
  rw [List.filter_filter]
  have : (l.filter fun a => (decide (a.id = t.id) && p a))
      = (l.filter fun u => decide (u.id = t.id)).filter p := by
    rw [List.filter_filter]
    congr 1
    funext a
    exact Bool.and_comm _ _
  rw [this, filter_id_of_nodup l hn t ht]
  by_cases hp : p t = true <;> simp [hp]

theorem length_filter_id_le_one (l : List Template) (hn : (l.map fun t => t.id).Nodup)
    (x : Nat) : (l.filter fun u => decide (u.id = x)).length ≤ 1 := by
  by_cases h : ∃ t ∈ l, t.id = x
  · obtain ⟨t, ht, hx⟩ := h
    subst hx
    rw [filter_id_of_nodup l hn t ht]
    simp
  · have : (l.filter fun u => decide (u.id = x)) = [] := by
      rw [List.filter_eq_nil_iff]
      intro u hu hux
      exact h ⟨u, hu, by simpa using hux⟩
    simp [this]

theorem countFor_mapNewTasks_filter_le_one (newId : Nat → ℚ) (d : String) (l : List Template)
    (hn : (l.map fun t => t.id).Nodup) (p : Template → Bool) (x : Nat) :
    countFor x (mapNewTasks newId d 0 (l.filter p)) ≤ 1 := by
  rw [countFor_mapNewTasks]
  have hsub : ((l.filter p).filter fun t => decide (t.id = x)).Sublist
      (l.filter fun t => decide (t.id = x)) :=
    List.Sublist.filter _ (List.filter_sublist l)
  exact le_trans hsub.length_le (length_filter_id_le_one l hn x)

theorem countForOn_le_countFor (x : Nat) (d : String) (l : List Instance) :
    countForOn x d l ≤ countFor x l := by
  unfold countForOn countFor
  have : (l.filter fun i => decide (i.templateId = x) && decide (i.date = d))
      = (l.filter fun i => decide (i.templateId = x)).filter fun i => decide (i.date = d) := by
    rw [List.filter_filter]
    congr 1
    funext a
    exact Bool.and_comm _ _
  rw [this]
  exact (List.filter_sublist _).length_le

theorem countForOn_append (x : Nat) (d : String) (l₁ l₂ : List Instance) :
    countForOn x d (l₁ ++ l₂) = countForOn x d l₁ + countForOn x d l₂ := by
  simp [countForOn, List.filter_append]

theorem countForOn_eq_zero_of_no_daily (x : Nat) (d : String) (l : List Instance)
    (h : (l.filter fun t => decide (t.date = d)) = []) : countForOn x d l = 0 := by
  unfold countForOn
  rw [List.filter_eq_nil_iff] at h
  have : (l.filter fun i => decide (i.templateId = x) && decide (i.date = d)) = [] := by
    rw [List.filter_eq_nil_iff]
    intro a ha hc
    simp only [Bool.and_eq_true] at hc
    exact h a ha hc.2
  simp [this]

theorem second_sync_finds_nothing (newId : Nat → ℚ) (d : String) (s : Store) :
    s.mejoras.filter
      (isMissing
        ((s.tasks ++ mapNewTasks newId d 0
          (s.mejoras.filter
            (isMissing (s.tasks.filter fun t => decide (t.date = d)) (getDay d) d))).filter
          fun t => decide (t.date = d))
        (getDay d) d) = [] := by
  rw [List.filter_eq_nil_iff]
  intro t ht hmiss
  rw [List.filter_append, mapNewTasks_filter_date] at hmiss
  unfold isMissing at hmiss
  split at hmiss
  · exact Bool.false_ne_true hmiss
  · next hany =>
    simp only [List.any_append, Bool.or_eq_true, not_or] at hany
    have hfirst : isMissing (s.tasks.filter fun t => decide (t.date = d)) (getDay d) d t
        = true := by
      unfold isMissing
      simp only [hany.1, if_false]
      exact hmiss
    have hmem : t ∈ s.mejoras.filter
        (isMissing (s.tasks.filter fun t => decide (t.date = d)) (getDay d) d) :=
      List.mem_filter.mpr ⟨ht, hfirst⟩
    apply hany.2
    have hid : t.id ∈ (mapNewTasks newId d 0 (s.mejoras.filter
        (isMissing (s.tasks.filter fun t => decide (t.date = d)) (getDay d) d))).map
        (fun i => i.templateId) := by
      rw [mapNewTasks_templateId]
      exact List.mem_map.mpr ⟨t, hmem, rfl⟩
    obtain ⟨i, hi, hti⟩ := List.mem_map.mp hid
    rw [List.any_eq_true]
    exact ⟨i, hi, by simpa using hti⟩

theorem isoFields_empty : isoFields "" = none := by decide

theorem filters_sound {d : String} {c : Nat × Nat × Nat} (hd : calendarDay d = some c)
    {t : Template} (hp : passesFilters (getDay d) d t = true) :
    (t.recurrence = none ∨ ∃ r, t.recurrence = some r ∧ dayOfWeek c ∈ r) ∧
    (∀ e ce, t.endDate = some e → isoFields e = some ce → ¬ dayBefore ce c) := by
  obtain ⟨hr, he⟩ := (passesFilters_iff d t).mp hp
  constructor
  · rcases hr with h | ⟨r, w, h, hw, hmem⟩
    · exact Or.inl h
    · rw [getDay_of_calendarDay hd, Option.some.injEq] at hw
      subst hw
      exact Or.inr ⟨r, h, hmem⟩
  · intro e ce hte hce
    rcases he with h | h | ⟨e', h, hle⟩
    · rw [h] at hte
      exact absurd hte (by simp)
    · rw [h, Option.some.injEq] at hte
      subst hte
      rw [isoFields_empty] at hce
      exact absurd hce (by simp)
    · rw [h, Option.some.injEq] at hte
      subst hte
      intro hb
      have := (jsLt_iff_dayBefore hce (calendarDay_isoFields hd)).mpr hb
      simp [jsLe, this] at hle

/-! ### The weekday function agrees with the calendar

One anchor day and the step from each day to the next determine the weekday of
every calendar day. -/

theorem dayOfWeek_anchor : dayOfWeek (1970, 1, 1) = 4 := by decide

theorem dayOfWeek_next_day (y m d : Nat) :
    dayOfWeek (y, m, d + 1) = (dayOfWeek (y, m, d) + 1) % 7 := by
  simp only [dayOfWeek]
  omega

theorem march_first_step (y last : Nat)
    (h : (last = 29 ∧ ((y % 4 = 0 ∧ y % 100 ≠ 0) ∨ y % 400 = 0)) ∨
      (last = 28 ∧ ¬ ((y % 4 = 0 ∧ y % 100 ≠ 0) ∨ y % 400 = 0))) :
    (y + 400 + (y + 400) / 4 - (y + 400) / 100 + (y / 400 + 1) + 2 + 1) % 7 =
      (y + 399 + (y + 399) / 4 - (y + 399) / 100 + (y + 399) / 400 + 3 + last + 1) % 7 := by
  have h4 : (y + 400) / 4 = (y + 399) / 4 + (if y % 4 = 0 then 1 else 0) := by
    split <;> omega
  have h100 : (y + 400) / 100 = (y + 399) / 100 + (if y % 100 = 0 then 1 else 0) := by
    split <;> omega
  have h400 : y / 400 + 1 = (y + 399) / 400 + (if y % 400 = 0 then 1 else 0) := by
    split <;> omega
  have b1 : (y + 399) / 100 ≤ (y + 399) / 4 := by omega
  rw [h4, h100, h400]
  generalize (y + 399) / 4 = a at *
  generalize (y + 399) / 100 = b at *
  generalize (y + 399) / 400 = c at *
  split <;> split <;> split <;> omega

theorem dayOfWeek_next_month (y m : Nat) (h1 : 1 ≤ m) (h2 : m < 12) :
    dayOfWeek (y, m + 1, 1) = (dayOfWeek (y, m, daysInMonth y m) + 1) % 7 := by
  have hm : m = 1 ∨ m = 2 ∨ m = 3 ∨ m = 4 ∨ m = 5 ∨ m = 6 ∨ m = 7 ∨ m = 8 ∨ m = 9 ∨
      m = 10 ∨ m = 11 := by omega
  rcases hm with h | h | h | h | h | h | h | h | h | h | h <;> subst h
  case inr.inl =>
    by_cases hl : isLeapYear y = true
    · have hl' : (y % 4 = 0 ∧ y % 100 ≠ 0) ∨ y % 400 = 0 := by
        simpa [isLeapYear] using hl
      simp only [dayOfWeek, daysInMonth, hl, if_true]
      simp
      exact march_first_step y 29 (Or.inl ⟨rfl, hl'⟩)
    · have hl' : ¬ ((y % 4 = 0 ∧ y % 100 ≠ 0) ∨ y % 400 = 0) := by
        simpa [isLeapYear] using hl
      simp only [dayOfWeek, daysInMonth, hl, if_false]
      simp
      exact march_first_step y 28 (Or.inr ⟨rfl, hl'⟩)
  all_goals
    simp [dayOfWeek, daysInMonth]
    try omega

theorem dayOfWeek_next_year (y : Nat) :
    dayOfWeek (y + 1, 1, 1) = (dayOfWeek (y, 12, 31) + 1) % 7 := by
  simp [dayOfWeek]
  omega

theorem find?_id_none (l : List Template) (id : Nat) (h : ∀ t ∈ l, t.id ≠ id) :
    l.find? (fun m => decide (m.id = id)) = none := by
  rw [List.find?_eq_none]
  intro t ht
  simpa using h t ht

theorem findIdx?_id_none (l : List Template) (id : Nat) (h : ∀ t ∈ l, t.id ≠ id) :
    l.findIdx? (fun m => decide (m.id = id)) = none := by
  rw [List.findIdx?_eq_none_iff]
  intro t ht
  simpa using h t ht

theorem find?_task_none (l : List Instance) (id : ℚ) (h : ∀ i ∈ l, i.id ≠ id) :
    l.find? (fun t => decide (t.id = id)) = none := by
  rw [List.find?_eq_none]
  intro t ht
  simpa using h t ht

theorem mem_generate_templateId {newId : Nat → ℚ} {d : String} {s : Store} {i : Instance}
    (h : i ∈ (generateDailyTasks newId d s).1) : ∃ t ∈ s.mejoras, i.templateId = t.id := by
  obtain ⟨t, ht, j, hj⟩ := mem_mapNewTasks h
  exact ⟨t, (List.mem_filter.mp ht).1, by rw [hj]; rfl⟩

theorem mem_sync_templateId {newId : Nat → ℚ} {d : String} {s : Store} {i : Instance}
    (h : i ∈ (syncDailyTasks newId d s).tasks.drop s.tasks.length) :
    ∃ t ∈ s.mejoras, i.templateId = t.id := by
  rw [syncDailyTasks_eq] at h
  simp only [List.drop_left] at h
  obtain ⟨t, ht, j, hj⟩ := mem_mapNewTasks h
  exact ⟨t, (List.mem_filter.mp ht).1, by rw [hj]; rfl⟩

theorem deleteMejora_no_id (id : Nat) (s : Store) :
    ∀ t ∈ (deleteMejora id s).mejoras, t.id ≠ id := by
  intro t ht
  simp only [deleteMejora, getMejoras, List.mem_filter, Bool.not_eq_true',
    decide_eq_false_iff_not] at ht
  exact ht.2

theorem addMejora_ids (now : Nat) (data : MejoraData) (s : Store) :
    (addMejora now data s).2.mejoras.map (fun t => t.id)
      = s.mejoras.map (fun t => t.id) ++ [now] := by
  simp [addMejora, getMejoras]

theorem addMejora_nodup_of_fresh (now : Nat) (data : MejoraData) (s : Store)
    (hn : (s.mejoras.map fun t => t.id).Nodup) (hfresh : ∀ t ∈ s.mejoras, t.id ≠ now) :
    ((addMejora now data s).2.mejoras.map fun t => t.id).Nodup := by
  rw [addMejora_ids]
  rw [List.nodup_append]
  refine ⟨hn, List.nodup_singleton _, ?_⟩
  intro a ha hb
  simp only [List.mem_singleton] at hb
  subst hb
  obtain ⟨t, ht, hid⟩ := List.mem_map.mp ha
  exact hfresh t ht hid

theorem splitColon_ne_nil (cs : List Char) : splitColon cs ≠ [] := by
  cases cs with
  | nil => simp [splitColon]
  | cons c cs =>
    unfold splitColon
    split
    · simp
    · split <;> simp

theorem splitColon_length (cs : List Char) :
    (splitColon cs).length = cs.count ':' + 1 := by
  induction cs with
  | nil => simp [splitColon]
  | cons c cs ih =>
    unfold splitColon
    by_cases hc : c = ':'
    · subst hc
      simp [ih]
    · have hne : (c == ':') = false := by simpa using hc
      simp only [hc, if_false, List.count_cons, hne, Bool.false_eq_true, if_false, Nat.add_zero]
      split
      · next h => exact absurd h (splitColon_ne_nil cs)
      · next p ps h =>
        rw [h] at ih
        simpa using ih

theorem parseEndTime_of_colons (limitStr : String) (h : limitStr.toList.count ':' ≠ 1) :
    parseEndTime limitStr = none := by
  unfold parseEndTime
  split
  · rfl
  · split
    · next a b hs =>
      have h2 : (splitColon limitStr.toList).length = 2 := by rw [hs]; rfl
      rw [splitColon_length] at h2
      exact absurd (by omega) h
    · rfl

theorem isOverLimit_false_of_unreadable (today : String) (now : Nat) (t : Instance)
    (hlim : t.limits = "Sin límite" ∨ t.limits = "" ∨ t.limits.toList.count ':' = 0 ∨
      ∃ h m, splitColon t.limits.toList = [h, m] ∧ (parseInt h = none ∨ parseInt m = none)) :
    isOverLimit today now t = false := by
  unfold isOverLimit
  rcases hlim with h | h | h | ⟨a, b, hs, hnan⟩
  · simp [h]
  · simp [h, parseEndTime]
  · rw [parseEndTime_of_colons t.limits (by omega)]
    simp
  · have : parseEndTime t.limits = none ∨ parseEndTime t.limits = some none := by
      unfold parseEndTime
      split
      · exact Or.inl rfl
      · right
        rw [hs]
        rcases hnan with h | h
        · simp [h]
        · cases parseInt a <;> simp [h]
    rcases this with h | h <;> simp [h]

theorem twoDigits_facts (n : Nat) (hn : n < 60) :
    splitColon (twoDigits n) = [twoDigits n] ∧ parseInt (twoDigits n) = some (n : Int) := by
  interval_cases n <;> decide

theorem twoDigits_no_colon (n : Nat) (hn : n < 60) :
    Char.ofNat (48 + n / 10) ≠ ':' ∧ Char.ofNat (48 + n % 10) ≠ ':' := by
  interval_cases n <;> decide

theorem splitColon_single_time (a b c d : Char) (ha : a ≠ ':') (hb : b ≠ ':')
    (hc : c ≠ ':') (hd : d ≠ ':') : splitColon [a, b, ':', c, d] = [[a, b], [c, d]] := by
  simp [splitColon, ha, hb, hc, hd]

theorem hhmm_ne_empty (h m : Nat) : hhmm h m ≠ "" := by
  intro he
  have := congrArg String.length he
  simp [hhmm, twoDigits] at this

theorem hhmm_ne_sentinel (h m : Nat) : hhmm h m ≠ "Sin límite" := by
  intro he
  have := congrArg String.length he
  simp [hhmm, twoDigits] at this
  revert this
  decide

theorem parseEndTime_hhmm (h m : Nat) (hh : h < 24) (hm : m < 60) :
    parseEndTime (hhmm h m) = some (some ((h : Int) * 60 + m)) := by
  have h1 := twoDigits_no_colon h (by omega)
  have h2 := twoDigits_no_colon m hm
  have p1 := (twoDigits_facts h (by omega)).2
  have p2 := (twoDigits_facts m hm).2
  unfold parseEndTime
  rw [if_neg (hhmm_ne_empty h m)]
  have hs : splitColon (hhmm h m).toList = [twoDigits h, twoDigits m] := by
    simp only [hhmm, twoDigits, List.cons_append, List.nil_append]
    exact splitColon_single_time _ _ _ _ h1.1 h1.2 h2.1 h2.2
  rw [hs]
  simp only [p1, p2]

/-! ### Double arithmetic -/

theorem roundHalfEven_of_near (q : ℚ) (m : ℤ) (h : |q - m| < 1 / 2) : roundHalfEven q = m := by
  rw [abs_lt] at h
  unfold roundHalfEven
  simp only
  by_cases hq : (m : ℚ) ≤ q
  · have hf : ⌊q⌋ = m := by
      rw [Int.floor_eq_iff]
      constructor <;> linarith
    rw [hf]
    rw [if_pos (by linarith)]
  · have hf : ⌊q⌋ = m - 1 := by
      rw [Int.floor_eq_iff]
      push_cast
      constructor <;> linarith
    rw [hf]
    push_cast
    rw [if_neg (by linarith), if_pos (by linarith)]
    ring

theorem roundHalfEven_intCast (m : ℤ) : roundHalfEven (m : ℚ) = m :=
  roundHalfEven_of_near _ m (by simp)

theorem int_log_two_eq {x : ℚ} (hx : 0 < x) (k : ℤ) (h1 : (2 : ℚ) ^ k ≤ x)
    (h2 : x < (2 : ℚ) ^ (k + 1)) : Int.log 2 x = k := by
  have a1 : k ≤ Int.log 2 x := by
    have := (Int.zpow_le_iff_le_log (b := 2) (by norm_num) (x := k) hx).mp (by exact_mod_cast h1)
    exact this
  have a2 : Int.log 2 x < k + 1 := by
    have := (Int.lt_zpow_iff_log_lt (b := 2) (by norm_num) (x := k + 1) hx).mp
      (by exact_mod_cast h2)
    exact this
  omega

/-- Evaluation of `toDouble` at a positive value from its binade and the
nearest significand. -/
theorem toDouble_eq_pos (x : ℚ) (hx : 0 < x) (k : ℤ) (h1 : (2 : ℚ) ^ k ≤ x)
    (h2 : x < (2 : ℚ) ^ (k + 1)) (e : ℤ) (he : e = max (k - 52) (-1074)) (m : ℤ)
    (hm : |x / 2 ^ e - m| < 1 / 2) (hr : (m : ℚ) * 2 ^ e < 2 ^ 1024) :
    toDouble x = .num (m * 2 ^ e) := by
  unfold toDouble
  rw [if_neg (ne_of_gt hx)]
  simp only [abs_of_pos hx, int_log_two_eq hx k h1 h2, ← he, roundHalfEven_of_near _ m hm]
  rw [if_neg (not_le.mpr hr), if_neg (not_lt.mpr hx.le)]

/-- A value whose magnitude is `n / 2^j` with `n` below `2^53` and `j` at most
1074 is a double: rounding leaves it as it is. -/
theorem toDouble_exact (x : ℚ) (n j : ℕ) (hx : |x| = (n : ℚ) / 2 ^ j) (hn : n < 2 ^ 53)
    (hj : j ≤ 1074) : toDouble x = .num x := by
  by_cases h0 : x = 0
  · simp [toDouble, h0]
  have ha : 0 < |x| := abs_pos.mpr h0
  have hL1 : (2 : ℚ) ^ Int.log 2 |x| ≤ |x| := by
    have := Int.zpow_log_le_self (b := 2) (by norm_num) ha
    exact_mod_cast this
  have h2j : (0 : ℚ) < 2 ^ j := by positivity
  have hnq : (n : ℚ) < 2 ^ 53 := by exact_mod_cast hn
  -- the exponent of the last place is at most `-j`
  have hLj : Int.log 2 |x| + j < 53 := by
    have h3 : (2 : ℚ) ^ (Int.log 2 |x| + j) ≤ n := by
      rw [zpow_add₀ (by norm_num : (2 : ℚ) ≠ 0), zpow_natCast]
      calc (2 : ℚ) ^ Int.log 2 |x| * 2 ^ j ≤ |x| * 2 ^ j :=
            mul_le_mul_of_nonneg_right hL1 h2j.le
        _ = n := by rw [hx]; field_simp
    have h4 : (2 : ℚ) ^ (Int.log 2 |x| + j) < 2 ^ (53 : ℤ) := by
      have : ((2 : ℚ) ^ (53 : ℤ)) = 2 ^ 53 := by norm_num
      rw [this]
      exact lt_of_le_of_lt h3 hnq
    exact (zpow_lt_zpow_iff_right₀ (by norm_num : (1 : ℚ) < 2)).mp h4
  have hed : ∃ d : ℕ, max (Int.log 2 |x| - 52) (-1074) = -((j : ℤ) + d) := by
    have hle : max (Int.log 2 |x| - 52) (-1074) ≤ -(j : ℤ) := by
      apply max_le <;> omega
    obtain ⟨d, hd⟩ := Int.eq_ofNat_of_zero_le
      (show 0 ≤ -(j : ℤ) - max (Int.log 2 |x| - 52) (-1074) by omega)
    exact ⟨d, by omega⟩
  obtain ⟨d, hd⟩ := hed
  have hpow : (2 : ℚ) ^ (-((j : ℤ) + d)) = ((2 : ℚ) ^ j * 2 ^ d)⁻¹ := by
    rw [zpow_neg, ← Nat.cast_add, zpow_natCast, pow_add]
  have hquot : |x| / ((2 : ℚ) ^ j * 2 ^ d)⁻¹ = ((n * 2 ^ d : ℤ) : ℚ) := by
    rw [hx]
    push_cast
    field_simp
    ring
  have hprod : (((n * 2 ^ d : ℤ) : ℚ)) * ((2 : ℚ) ^ j * 2 ^ d)⁻¹ = |x| := by
    rw [hx]
    push_cast
    field_simp
    ring
  have hsmall : ¬ ((2 : ℚ) ^ 1024 ≤ |x|) := by
    rw [not_le, hx]
    have h1 : (n : ℚ) / 2 ^ j ≤ n := div_le_self (by positivity) (one_le_pow₀ (by norm_num))
    have h2 : (2 : ℚ) ^ 53 < 2 ^ 1024 := by norm_num
    linarith
  unfold toDouble
  rw [if_neg h0]
  simp only [hd, hpow, hquot, roundHalfEven_intCast, hprod]
  rw [if_neg hsmall]
  by_cases hneg : x < 0
  · rw [if_pos hneg, abs_of_neg hneg, neg_neg]
  · rw [if_neg hneg, abs_of_nonneg (not_lt.mp hneg)]

theorem toDouble_quarter (k : ℤ) (hk : |(k : ℚ) / 4| < 2 ^ 51) :
    toDouble ((k : ℚ) / 4) = .num ((k : ℚ) / 4) := by
  apply toDouble_exact _ k.natAbs 2
  · rw [abs_div, Nat.cast_natAbs]
    norm_num
  · have h1 : |(k : ℚ)| < 2 ^ 53 := by
      rw [abs_div] at hk
      have : |(4 : ℚ)| = 4 := by norm_num
      rw [this, div_lt_iff₀ (by norm_num)] at hk
      calc |(k : ℚ)| < 2 ^ 51 * 4 := hk
        _ = 2 ^ 53 := by norm_num
    have h2 : ((k.natAbs : ℤ) : ℚ) < 2 ^ 53 := by
      rw [Int.natCast_natAbs]
      push_cast
      exact h1
    exact_mod_cast h2
  · norm_num

theorem sum_abs_gain_nonneg (l : List Instance) : 0 ≤ (l.map fun t => |t.gain|).sum := by
  apply List.sum_nonneg
  intro x hx
  obtain ⟨t, _, rfl⟩ := List.mem_map.mp hx
  exact abs_nonneg _

theorem sum_abs_gain_filter_and_le (l : List Instance) (p q : Instance → Bool) :
    ((l.filter fun t => p t && q t).map fun t => |t.gain|).sum
      ≤ ((l.filter p).map fun t => |t.gain|).sum := by
  induction l with
  | nil => simp
  | cons a as ih =>
    cases hp : p a <;> cases hq : q a <;> simp [List.filter_cons, hp, hq, ih]
    have := abs_nonneg a.gain
    linarith

theorem abs_sum_gain_le (l : List Instance) :
    |(l.map fun t => t.gain).sum| ≤ (l.map fun t => |t.gain|).sum := by
  induction l with
  | nil => simp
  | cons a as ih =>
    simp only [List.map_cons, List.sum_cons]
    exact le_trans (abs_add _ _) (by linarith)

theorem sum_gain_quarter (l : List Instance) (hq : ∀ t ∈ l, ∃ k : ℤ, t.gain = (k : ℚ) / 4) :
    ∃ k : ℤ, (l.map fun t => t.gain).sum = (k : ℚ) / 4 := by
  induction l with
  | nil => exact ⟨0, by simp⟩
  | cons a as ih =>
    obtain ⟨k₁, h₁⟩ := hq a (List.mem_cons_self _ _)
    obtain ⟨k₂, h₂⟩ := ih (fun t ht => hq t (List.mem_cons_of_mem _ ht))
    refine ⟨k₁ + k₂, ?_⟩
    simp only [List.map_cons, List.sum_cons, h₁, h₂]
    push_cast
    ring

/-- Adding gains that are whole quarters is exact as long as the magnitudes
stay below `2^51`. -/
theorem foldl_jsAdd_quarter (l : List Instance) (a : ℚ) (ha : ∃ k : ℤ, a = (k : ℚ) / 4)
    (hq : ∀ t ∈ l, ∃ k : ℤ, t.gain = (k : ℚ) / 4)
    (hb : |a| + (l.map fun t => |t.gain|).sum < 2 ^ 51) :
    l.foldl (fun sum t => jsAdd sum (toDouble t.gain)) (.num a)
      = .num (a + (l.map fun t => t.gain).sum) := by
  induction l generalizing a with
  | nil => simp
  | cons t ts ih =>
    obtain ⟨ka, hka⟩ := ha
    obtain ⟨kt, hkt⟩ := hq t (List.mem_cons_self _ _)
    simp only [List.map_cons, List.sum_cons] at hb
    have hrest := sum_abs_gain_nonneg ts
    have hgain : toDouble t.gain = .num t.gain := by
      rw [hkt]
      apply toDouble_quarter
      rw [← hkt]
      have := abs_nonneg a
      linarith
    have hsum : toDouble (a + t.gain) = .num (a + t.gain) := by
      have : a + t.gain = ((ka + kt : ℤ) : ℚ) / 4 := by
        rw [hka, hkt]; push_cast; ring
      rw [this]
      apply toDouble_quarter
      rw [← this]
      have := abs_add a t.gain
      linarith
    show List.foldl (fun sum t => jsAdd sum (toDouble t.gain))
        (jsAdd (.num a) (toDouble t.gain)) ts = _
    have hstep : jsAdd (.num a) (toDouble t.gain) = .num (a + t.gain) := by
      rw [hgain]
      exact hsum
    simp only [List.map_cons, List.sum_cons]
    rw [hstep, ih (a + t.gain) ⟨ka + kt, by rw [hka, hkt]; push_cast; ring⟩
      (fun u hu => hq u (List.mem_cons_of_mem _ hu))
      (by have := abs_add a t.gain; linarith)]
    congr 1
    ring

theorem toFixed2_quarter (k : ℤ) (hk : |(k : ℚ) / 4| < 2 ^ 51) :
    toFixed2 (.num ((k : ℚ) / 4)) = .num ((k : ℚ) / 4) := by
  have hfloor : ∀ m : ℤ, ⌊(m : ℚ) + 1 / 2⌋ = m := by
    intro m
    rw [Int.floor_eq_iff]
    constructor <;> linarith
  unfold toFixed2
  simp only
  split
  · have h1 : -((k : ℚ) / 4) * 100 + 1 / 2 = ((-(25 * k) : ℤ) : ℚ) + 1 / 2 := by
      push_cast; ring
    rw [h1, hfloor]
    have h2 : -(((-(25 * k) : ℤ) : ℚ)) / 100 = (k : ℚ) / 4 := by push_cast; ring
    rw [h2]
    exact toDouble_quarter k hk
  · have h1 : (k : ℚ) / 4 * 100 + 1 / 2 = ((25 * k : ℤ) : ℚ) + 1 / 2 := by
      push_cast; ring
    rw [h1, hfloor]
    have h2 : (((25 * k : ℤ) : ℚ)) / 100 = (k : ℚ) / 4 := by push_cast; ring
    rw [h2]
    exact toDouble_quarter k hk

/-- The figure that `getStats` computes from a list of tasks whose gains are
whole quarters is their exact sum. -/
theorem stat_of_quarter_gains (l : List Instance)
    (hq : ∀ t ∈ l, ∃ k : ℤ, t.gain = (k : ℚ) / 4)
    (hb : (l.map fun t => |t.gain|).sum < 2 ^ 51) :
    toFixed2 (l.foldl (fun sum t => jsAdd sum (toDouble t.gain)) (.num 0))
      = .num (l.map fun t => t.gain).sum := by
  rw [foldl_jsAdd_quarter l 0 ⟨0, by simp⟩ hq (by simpa using hb), zero_add]
  obtain ⟨k, hk⟩ := sum_gain_quarter l hq
  rw [hk]
  apply toFixed2_quarter
  rw [← hk]
  exact lt_of_le_of_lt (abs_sum_gain_le l) hb

theorem toDouble_one : toDouble 1 = .num 1 := by
  have := toDouble_quarter 4 (by norm_num)
  norm_num at this
  exact this

theorem toDouble_five_thousandths :
    toDouble (5 / 1000) = .num (5764607523034235 / 1152921504606846976) := by
  have h := toDouble_eq_pos (5 / 1000) (by norm_num) (-8) (by norm_num) (by norm_num) (-60)
    (by norm_num) 5764607523034235 (by rw [abs_lt]; norm_num) (by norm_num)
  rw [h]
  congr 1
  norm_num

theorem toDouble_small_gain :
    toDouble (5764607523034235 / 1152921504606846976)
      = .num (5764607523034235 / 1152921504606846976) := by
  apply toDouble_exact _ 5764607523034235 60
  · rw [abs_of_pos (by norm_num)]
    norm_num
  · norm_num
  · norm_num

theorem toDouble_one_plus_small :
    toDouble (1 + 5764607523034235 / 1152921504606846976)
      = .num (4526117625507348 / 4503599627370496) := by
  have h := toDouble_eq_pos (1 + 5764607523034235 / 1152921504606846976) (by norm_num) 0
    (by norm_num) (by norm_num) (-52) (by norm_num) 4526117625507348
    (by rw [abs_lt]; norm_num) (by norm_num)
  rw [h]
  congr 1
  norm_num

theorem toFixed2_one_plus_small :
    toFixed2 (.num (4526117625507348 / 4503599627370496)) = .num 1 := by
  unfold toFixed2
  simp only
  rw [if_neg (by norm_num)]
  have hf : ⌊(4526117625507348 / 4503599627370496 : ℚ) * 100 + 1 / 2⌋ = 100 := by
    rw [Int.floor_eq_iff]
    constructor <;> norm_num
  rw [hf]
  norm_num
  exact toDouble_one

theorem getStats_small_gain :
    (getStats "2024-01-02"
      { mejoras := [], tasks := [completedTask, smallGainTask] }).1.totalGain = .num 1 := by
  show toFixed2 (List.foldl (fun sum t => jsAdd sum (toDouble t.gain)) (.num 0)
    ([completedTask, smallGainTask].filter fun t => decide (t.status = "completed"))) = _
  have hfilter : ([completedTask, smallGainTask].filter
      fun t => decide (t.status = "completed")) = [completedTask, smallGainTask] := rfl
  rw [hfilter]
  show toFixed2 (jsAdd (jsAdd (.num 0) (toDouble 1))
    (toDouble (5764607523034235 / 1152921504606846976))) = _
  rw [toDouble_one, toDouble_small_gain]
  have h1 : jsAdd (.num 0) (.num 1) = .num 1 := by
    show toDouble (0 + 1) = _
    rw [zero_add]
    exact toDouble_one
  have h2 : jsAdd (.num 1) (.num (5764607523034235 / 1152921504606846976))
      = .num (4526117625507348 / 4503599627370496) := toDouble_one_plus_small
  rw [h1, h2, toFixed2_one_plus_small]

/-! ## The expiry rules -/

/-- C6. Monotonic status under the expiry rules: an instance of the collection
whose status is `completed` or `failed` is exactly the same instance, at the
same position, after `failPastPendingTasks` and after `checkTaskLimits`, for
every `today` and every current minute of the day; so its status is the same. -/
theorem expiry_keeps_terminal_status (today : String) (currentTimeVal : Nat) (s : Store)
    (k : Nat) (t : Instance) (hk : s.tasks[k]? = some t)
    (hs : t.status = "completed" ∨ t.status = "failed") :
    (failPastPendingTasks today s).tasks[k]? = some t ∧
    (checkTaskLimits today currentTimeVal s).tasks[k]? = some t ∧
    ((failPastPendingTasks today s).tasks[k]?).map (fun i => i.status) = some t.status ∧
    ((checkTaskLimits today currentTimeVal s).tasks[k]?).map (fun i => i.status)
      = some t.status := by
  have hne : t.status ≠ "pending" := by
    rcases hs with h | h <;> rw [h] <;> decide
  have h1 : (failPastPendingTasks today s).tasks[k]? = some t := by
    rw [failPastPendingTasks_eq]
    simp [List.getElem?_map, hk, failPastOne_of_not_pending today t hne]
  have h2 : (checkTaskLimits today currentTimeVal s).tasks[k]? = some t := by
    rw [checkTaskLimits_eq]
    simp [List.getElem?_map, hk, checkLimitOne_of_not_pending today currentTimeVal t hne]
  refine ⟨h1, h2, ?_, ?_⟩
  · rw [h1]; rfl
  · rw [h2]; rfl

/-- C6, at a concrete store: a failed task and a completed task keep their
status on 2024-01-02 at 11:40. -/
theorem expiry_keeps_terminal_status_witness :
    (({ mejoras := [], tasks := [failedTask, completedTask] } : Store).tasks[1]?
        = some completedTask ∧
      (completedTask.status = "completed" ∨ completedTask.status = "failed")) ∧
    ((failPastPendingTasks "2024-01-02"
        { mejoras := [], tasks := [failedTask, completedTask] }).tasks[1]? = some completedTask ∧
      (checkTaskLimits "2024-01-02" 700
        { mejoras := [], tasks := [failedTask, completedTask] }).tasks[1]? = some completedTask ∧
      ((failPastPendingTasks "2024-01-02"
        { mejoras := [], tasks := [failedTask, completedTask] }).tasks[1]?).map
          (fun i => i.status) = some completedTask.status ∧
      ((checkTaskLimits "2024-01-02" 700
        { mejoras := [], tasks := [failedTask, completedTask] }).tasks[1]?).map
          (fun i => i.status) = some completedTask.status) :=
  ⟨⟨by decide, by decide⟩,
    expiry_keeps_terminal_status "2024-01-02" 700
      { mejoras := [], tasks := [failedTask, completedTask] } 1 completedTask
      (by decide) (by decide)⟩

/-- C9. Missed-day expiry: with `today` and the instance's date well-formed
zero-padded `YYYY-MM-DD` strings, one pass of `failPastPendingTasks` turns
an instance that is pending and dated a calendar day before `today` into the
same instance with status `failed`, and leaves every other instance (dated
today or later, or not pending) exactly as it was; templates and the number of
instances do not change. -/
theorem missed_day_expiry (today : String) (s : Store) (ct : Nat × Nat × Nat)
    (htoday : isoFields today = some ct)
    (k : Nat) (t : Instance) (hk : s.tasks[k]? = some t)
    (cd : Nat × Nat × Nat) (hd : isoFields t.date = some cd) :
    (t.status = "pending" ∧ dayBefore cd ct →
      (failPastPendingTasks today s).tasks[k]? = some { t with status := "failed" }) ∧
    (¬ (t.status = "pending" ∧ dayBefore cd ct) →
      (failPastPendingTasks today s).tasks[k]? = some t) ∧
    (failPastPendingTasks today s).tasks.length = s.tasks.length ∧
    (failPastPendingTasks today s).mejoras = s.mejoras := by
  have hiff : isPastPending today t = true ↔ (t.status = "pending" ∧ dayBefore cd ct) := by
    unfold isPastPending
    rw [Bool.and_eq_true, jsLt_iff_dayBefore hd htoday, decide_eq_true_eq]
    exact And.comm
  rw [failPastPendingTasks_eq]
  refine ⟨?_, ?_, by simp, rfl⟩
  · intro h
    simp [List.getElem?_map, hk, failPastOne, hiff.mpr h]
  · intro h
    have : isPastPending today t = false := by
      cases hp : isPastPending today t with
      | false => rfl
      | true => exact absurd (hiff.mp hp) h
    simp [List.getElem?_map, hk, failPastOne, this]

/-- C9, at a concrete store: on 2024-01-02 a pending task dated the day before
becomes failed and a pending task dated 2024-01-02 stays as it is. -/
theorem missed_day_expiry_witness :
    (isoFields "2024-01-02" = some (2024, 1, 2) ∧
      ({ mejoras := [], tasks := [pendingTask, windowTask] } : Store).tasks[0]?
        = some pendingTask ∧
      isoFields pendingTask.date = some (2024, 1, 1)) ∧
    ((pendingTask.status = "pending" ∧ dayBefore (2024, 1, 1) (2024, 1, 2) →
      (failPastPendingTasks "2024-01-02"
        { mejoras := [], tasks := [pendingTask, windowTask] }).tasks[0]?
          = some { pendingTask with status := "failed" }) ∧
    (¬ (pendingTask.status = "pending" ∧ dayBefore (2024, 1, 1) (2024, 1, 2)) →
      (failPastPendingTasks "2024-01-02"
        { mejoras := [], tasks := [pendingTask, windowTask] }).tasks[0]? = some pendingTask) ∧
    (failPastPendingTasks "2024-01-02"
        { mejoras := [], tasks := [pendingTask, windowTask] }).tasks.length
      = ({ mejoras := [], tasks := [pendingTask, windowTask] } : Store).tasks.length ∧
    (failPastPendingTasks "2024-01-02"
        { mejoras := [], tasks := [pendingTask, windowTask] }).mejoras
      = ({ mejoras := [], tasks := [pendingTask, windowTask] } : Store).mejoras) :=
  ⟨⟨by decide, by decide, by decide⟩,
    missed_day_expiry "2024-01-02" { mejoras := [], tasks := [pendingTask, windowTask] }
      (2024, 1, 2) (by decide) 0 pendingTask (by decide) (2024, 1, 1) (by decide)⟩

/-- C10. The two expiry rules are idempotent and order-independent: applying
`failPastPendingTasks` twice equals applying it once, the same for
`checkTaskLimits`, and the two rules give the same store in either order, for
every store, `today` and current minute of the day. -/
theorem expiry_idempotent_and_commute (today : String) (currentTimeVal : Nat) (s : Store) :
    failPastPendingTasks today (failPastPendingTasks today s) = failPastPendingTasks today s ∧
    checkTaskLimits today currentTimeVal (checkTaskLimits today currentTimeVal s)
      = checkTaskLimits today currentTimeVal s ∧
    checkTaskLimits today currentTimeVal (failPastPendingTasks today s)
      = failPastPendingTasks today (checkTaskLimits today currentTimeVal s) := by
  refine ⟨?_, ?_, ?_⟩
  · rw [failPastPendingTasks_eq today s, failPastPendingTasks_eq]
    simp [List.map_map, Function.comp_def, failPastOne_idem]
  · rw [checkTaskLimits_eq today currentTimeVal s, checkTaskLimits_eq]
    simp [List.map_map, Function.comp_def, checkLimitOne_idem]
  · rw [failPastPendingTasks_eq today s, checkTaskLimits_eq today currentTimeVal s,
      failPastPendingTasks_eq, checkTaskLimits_eq]
    simp [List.map_map, Function.comp_def, failPast_checkLimit_comm]

/-! ## Limit windows -/

/-- C2, the code at the spec's example: a pending task dated today whose limit
is the window `09:00 - 10:00` is still pending after `checkTaskLimits` at 10:05
(minute 605), as it is at 09:30 (minute 570): `split(':')` yields three pieces
for a window string, so `parseEndTime` returns `null` and no window ever
expires. -/
theorem window_limit_is_never_applied :
    splitColon "09:00 - 10:00".toList = ["09".toList, "00 - 10".toList, "00".toList] ∧
    parseEndTime "09:00 - 10:00" = none ∧
    windowTask.status = "pending" ∧ windowTask.date = "2024-01-02" ∧
    windowTask.limits = "09:00 - 10:00" ∧
    (checkTaskLimits "2024-01-02" 605 { mejoras := [], tasks := [windowTask] }).tasks
      = [windowTask] ∧
    (checkTaskLimits "2024-01-02" 570 { mejoras := [], tasks := [windowTask] }).tasks
      = [windowTask] := by
  decide

/-! ## `updateTaskStatus` -/

/-- C3 fails as stated: `updateTaskStatus` (and `handleMarkTask`, which calls
it) turns a failed instance into a completed one. -/
theorem updateTaskStatus_overwrites_failed :
    ({ mejoras := [], tasks := [failedTask] } : Store).tasks[0]? = some failedTask ∧
    failedTask.status = "failed" ∧
    ((updateTaskStatus 3 "completed" "2024-01-02"
        { mejoras := [], tasks := [failedTask] }).tasks[0]?).map (fun i => i.status)
      = some "completed" ∧
    ((handleMarkTask 1 1 (fun _ => 9) "2024-01-02" 3
        { mejoras := [], tasks := [failedTask] }).tasks[0]?).map (fun i => i.status)
      = some "completed" ∧
    failedTask.status ≠ "completed" := by
  decide

/-- C3 as amended: `updateTaskStatus(id, status, date)` has no guard on the
current status. The instance that `find` returns, the first one whose id is
`id`, gets the given status and `dateCompleted = date` whatever its status was;
every other instance of the collection, so every completed or failed one among
them, is unchanged. Templates and the number of instances do not change. -/
theorem updateTaskStatus_changes_only_target (id : ℚ) (status dateStr : String) (s : Store)
    (k : Nat) (t : Instance) (hk : s.tasks[k]? = some t) :
    ((t.id ≠ id ∨ ∃ j u, j < k ∧ s.tasks[j]? = some u ∧ u.id = id) →
      (updateTaskStatus id status dateStr s).tasks[k]? = some t) ∧
    ((t.id = id ∧ ∀ j u, j < k → s.tasks[j]? = some u → u.id ≠ id) →
      (updateTaskStatus id status dateStr s).tasks[k]?
        = some { t with status := status, dateCompleted := some dateStr }) ∧
    (updateTaskStatus id status dateStr s).mejoras = s.mejoras := by
  rw [updateTaskStatus_eq]
  refine ⟨?_, ?_, rfl⟩
  · intro h
    exact markFirst_getElem?_other id status dateStr s.tasks k t hk h
  · intro h
    exact markFirst_getElem?_first id status dateStr s.tasks k t hk h.1 h.2

/-- C3 as amended, at a concrete store: marking the task with id 1 completed
leaves the failed task after it as it is. -/
theorem updateTaskStatus_changes_only_target_witness :
    ({ mejoras := [], tasks := [pendingTask, failedTask] } : Store).tasks[1]?
      = some failedTask ∧
    (((failedTask.id ≠ 1 ∨ ∃ j u, j < 1 ∧
        ({ mejoras := [], tasks := [pendingTask, failedTask] } : Store).tasks[j]? = some u ∧
        u.id = 1) →
      (updateTaskStatus 1 "completed" "2024-01-01"
        { mejoras := [], tasks := [pendingTask, failedTask] }).tasks[1]? = some failedTask) ∧
    ((failedTask.id = 1 ∧ ∀ j u, j < 1 →
        ({ mejoras := [], tasks := [pendingTask, failedTask] } : Store).tasks[j]? = some u →
        u.id ≠ 1) →
      (updateTaskStatus 1 "completed" "2024-01-01"
        { mejoras := [], tasks := [pendingTask, failedTask] }).tasks[1]?
        = some { failedTask with status := "completed", dateCompleted := some "2024-01-01" }) ∧
    (updateTaskStatus 1 "completed" "2024-01-01"
        { mejoras := [], tasks := [pendingTask, failedTask] }).mejoras
      = ({ mejoras := [], tasks := [pendingTask, failedTask] } : Store).mejoras) :=
  ⟨by decide,
    updateTaskStatus_changes_only_target 1 "completed" "2024-01-01"
      { mejoras := [], tasks := [pendingTask, failedTask] } 1 failedTask (by decide)⟩

/-! ## `dateCompleted` -/

/-- C4 fails as stated: a pending task failed by `failPastPendingTasks`, or by
`checkTaskLimits`, leaves `pending` and its `dateCompleted` is still `null`. -/
theorem expiry_leaves_dateCompleted_null :
    pendingTask.status = "pending" ∧
    (failPastPendingTasks "2024-01-02" { mejoras := [], tasks := [pendingTask] }).tasks.map
      (fun i => (i.status, i.dateCompleted)) = [("failed", none)] ∧
    (checkTaskLimits "2024-01-01" 605 { mejoras := [], tasks := [pendingTask] }).tasks.map
      (fun i => (i.status, i.dateCompleted)) = [("failed", none)] := by
  decide

/-- C4 as amended: `dateCompleted` is set by `updateTaskStatus` only. An instance
that is pending before `updateTaskStatus(id, status, date)` and not pending
after it has `dateCompleted = date` (non-null) after it; `failPastPendingTasks`
and `checkTaskLimits` leave the `dateCompleted` of every instance as it was. -/
theorem dateCompleted_set_by_updateTaskStatus_only (today : String) (currentTimeVal : Nat)
    (id : ℚ) (status dateStr : String) (s : Store)
    (k : Nat) (t t' : Instance) (hk : s.tasks[k]? = some t)
    (hk' : (updateTaskStatus id status dateStr s).tasks[k]? = some t')
    (hp : t.status = "pending") (hnp : t'.status ≠ "pending") :
    (t'.dateCompleted = some dateStr ∧ t'.dateCompleted ≠ none) ∧
    (failPastPendingTasks today s).tasks.map (fun i => i.dateCompleted)
      = s.tasks.map (fun i => i.dateCompleted) ∧
    (checkTaskLimits today currentTimeVal s).tasks.map (fun i => i.dateCompleted)
      = s.tasks.map (fun i => i.dateCompleted) := by
  refine ⟨?_, ?_, ?_⟩
  · rw [updateTaskStatus_eq] at hk'
    by_cases h : t.id ≠ id ∨ ∃ j u, j < k ∧ s.tasks[j]? = some u ∧ u.id = id
    · have := markFirst_getElem?_other id status dateStr s.tasks k t hk h
      simp only at hk'
      rw [this, Option.some.injEq] at hk'
      subst hk'
      exact absurd hp hnp
    · have h1 : t.id = id := by
        by_contra hne
        exact h (Or.inl hne)
      have h2 : ∀ j u, j < k → s.tasks[j]? = some u → u.id ≠ id := by
        intro j u hj hu hid
        exact h (Or.inr ⟨j, u, hj, hu, hid⟩)
      have := markFirst_getElem?_first id status dateStr s.tasks k t hk h1 h2
      simp only at hk'
      rw [this, Option.some.injEq] at hk'
      subst hk'
      simp
  · rw [failPastPendingTasks_eq]
    simp only [List.map_map]
    apply List.map_congr_left
    intro a _
    simp only [Function.comp_apply, failPastOne]
    split <;> rfl
  · rw [checkTaskLimits_eq]
    simp only [List.map_map]
    apply List.map_congr_left
    intro a _
    simp only [Function.comp_apply, checkLimitOne]
    split <;> rfl

/-- C4 as amended, at a concrete store: marking the pending task with id 1
completed on 2024-01-01 sets its `dateCompleted` to that date. -/
theorem dateCompleted_set_by_updateTaskStatus_only_witness :
    (({ mejoras := [], tasks := [pendingTask] } : Store).tasks[0]? = some pendingTask ∧
      (updateTaskStatus 1 "completed" "2024-01-01"
        { mejoras := [], tasks := [pendingTask] }).tasks[0]?
        = some { pendingTask with status := "completed", dateCompleted := some "2024-01-01" } ∧
      pendingTask.status = "pending" ∧
      ({ pendingTask with status := "completed", dateCompleted := some "2024-01-01" } :
        Instance).status ≠ "pending") ∧
    ((({ pendingTask with status := "completed", dateCompleted := some "2024-01-01" } :
        Instance).dateCompleted = some "2024-01-01" ∧
      ({ pendingTask with status := "completed", dateCompleted := some "2024-01-01" } :
        Instance).dateCompleted ≠ none) ∧
    (failPastPendingTasks "2024-01-02" { mejoras := [], tasks := [pendingTask] }).tasks.map
        (fun i => i.dateCompleted)
      = ({ mejoras := [], tasks := [pendingTask] } : Store).tasks.map
        (fun i => i.dateCompleted) ∧
    (checkTaskLimits "2024-01-02" 605 { mejoras := [], tasks := [pendingTask] }).tasks.map
        (fun i => i.dateCompleted)
      = ({ mejoras := [], tasks := [pendingTask] } : Store).tasks.map
        (fun i => i.dateCompleted)) :=
  ⟨⟨by decide, by decide, by decide, by decide⟩,
    dateCompleted_set_by_updateTaskStatus_only "2024-01-02" 605 1 "completed" "2024-01-01"
      { mejoras := [], tasks := [pendingTask] } 0 pendingTask
      { pendingTask with status := "completed", dateCompleted := some "2024-01-01" }
      (by decide) (by decide) (by decide) (by decide)⟩

/-! ## Materialisation: `generateDailyTasks` and `syncDailyTasks` -/

/-- C1 fails as stated: `generateDailyTasks` does not look at the stored tasks.
With one template (distinct ids) and an empty task collection, the second of
two calls for 2024-01-01 skips nothing, and the collection then holds two
instances for the pair (template 10, 2024-01-01). -/
theorem generateDailyTasks_twice_duplicates :
    (({ mejoras := [dailyTemplate], tasks := [] } : Store).mejoras.map fun t => t.id).Nodup ∧
    (generateDailyTasks (fun _ => 2) "2024-01-01"
      (generateDailyTasks (fun _ => 1) "2024-01-01"
        { mejoras := [dailyTemplate], tasks := [] }).2).1.map (fun i => i.templateId) = [10] ∧
    countForOn 10 "2024-01-01"
      (generateDailyTasks (fun _ => 2) "2024-01-01"
        (generateDailyTasks (fun _ => 1) "2024-01-01"
          { mejoras := [dailyTemplate], tasks := [] }).2).2.tasks = 2 := by
  decide

/-- C1 as amended: with pairwise distinct template ids, `generateDailyTasks(d)`
keeps the stored tasks unchanged and in order and appends (and returns) exactly
one new task for each template whose recurrence is absent or contains the
weekday of `d` and whose end date is absent or `d <= endDate`, whether or not a
task for `d` is already stored, and none for any other template; each new task
carries the id, title, limits and gain of such a template, status `pending`,
date `d` and `dateCompleted = null`. When moreover no stored task is dated `d`
(the case in which `renderPrincipalView` calls it), the resulting collection
holds at most one task per (templateId, `d`) pair. -/
theorem generateDailyTasks_appends_each_passing_template (newId : Nat → ℚ) (d : String)
    (s : Store) (hn : (s.mejoras.map fun t => t.id).Nodup) :
    (generateDailyTasks newId d s).2.tasks = s.tasks ++ (generateDailyTasks newId d s).1 ∧
    (generateDailyTasks newId d s).2.mejoras = s.mejoras ∧
    (∀ t ∈ s.mejoras, recurrenceAllows d t ∧ endDateAllows d t →
      countFor t.id (generateDailyTasks newId d s).1 = 1) ∧
    (∀ t ∈ s.mejoras, ¬ (recurrenceAllows d t ∧ endDateAllows d t) →
      countFor t.id (generateDailyTasks newId d s).1 = 0) ∧
    (∀ i ∈ (generateDailyTasks newId d s).1, ∃ t ∈ s.mejoras,
      (recurrenceAllows d t ∧ endDateAllows d t) ∧
      i.templateId = t.id ∧ i.title = t.title ∧ i.limits = t.limits ∧ i.gain = t.gain ∧
      i.status = "pending" ∧ i.date = d ∧ i.dateCompleted = none) ∧
    (getDailyTasks d s = [] →
      ∀ templateId, countForOn templateId d (generateDailyTasks newId d s).2.tasks ≤ 1) := by
  refine ⟨rfl, rfl, ?_, ?_, ?_, ?_⟩
  · intro t ht hpass
    unfold generateDailyTasks
    simp only
    rw [countFor_mapNewTasks, length_filter_filter_id s.mejoras hn _ t ht,
      (passesFilters_iff d t).mpr hpass]
    rfl
  · intro t ht hpass
    unfold generateDailyTasks
    simp only
    rw [countFor_mapNewTasks, length_filter_filter_id s.mejoras hn _ t ht]
    have : passesFilters (getDay d) d t = false := by
      cases h : passesFilters (getDay d) d t with
      | false => rfl
      | true => exact absurd ((passesFilters_iff d t).mp h) hpass
    rw [this]
    rfl
  · intro i hi
    obtain ⟨t, ht, j, hj⟩ := mem_mapNewTasks hi
    obtain ⟨hmem, hpass⟩ := List.mem_filter.mp ht
    refine ⟨t, hmem, (passesFilters_iff d t).mp hpass, ?_⟩
    rw [hj]
    simp [newTask]
  · intro hguard x
    unfold generateDailyTasks
    simp only
    rw [countForOn_append, countForOn_eq_zero_of_no_daily x d s.tasks hguard, Nat.zero_add]
    exact le_trans (countForOn_le_countFor x d _)
      (countFor_mapNewTasks_filter_le_one newId d s.mejoras hn _ x)

/-- C1 as amended, at a concrete store: two templates, one stored task of the
day before, generation for Tuesday 2024-01-02. -/
theorem generateDailyTasks_appends_each_passing_template_witness :
    (guardedStore.mejoras.map fun t => t.id).Nodup ∧
    ((generateDailyTasks (fun _ => 5) "2024-01-02" guardedStore).2.tasks
      = guardedStore.tasks ++ (generateDailyTasks (fun _ => 5) "2024-01-02" guardedStore).1 ∧
    (generateDailyTasks (fun _ => 5) "2024-01-02" guardedStore).2.mejoras
      = guardedStore.mejoras ∧
    (∀ t ∈ guardedStore.mejoras,
      recurrenceAllows "2024-01-02" t ∧ endDateAllows "2024-01-02" t →
      countFor t.id (generateDailyTasks (fun _ => 5) "2024-01-02" guardedStore).1 = 1) ∧
    (∀ t ∈ guardedStore.mejoras,
      ¬ (recurrenceAllows "2024-01-02" t ∧ endDateAllows "2024-01-02" t) →
      countFor t.id (generateDailyTasks (fun _ => 5) "2024-01-02" guardedStore).1 = 0) ∧
    (∀ i ∈ (generateDailyTasks (fun _ => 5) "2024-01-02" guardedStore).1,
      ∃ t ∈ guardedStore.mejoras,
        (recurrenceAllows "2024-01-02" t ∧ endDateAllows "2024-01-02" t) ∧
        i.templateId = t.id ∧ i.title = t.title ∧ i.limits = t.limits ∧ i.gain = t.gain ∧
        i.status = "pending" ∧ i.date = "2024-01-02" ∧ i.dateCompleted = none) ∧
    (getDailyTasks "2024-01-02" guardedStore = [] →
      ∀ templateId, countForOn templateId "2024-01-02"
        (generateDailyTasks (fun _ => 5) "2024-01-02" guardedStore).2.tasks ≤ 1)) :=
  ⟨by decide,
    generateDailyTasks_appends_each_passing_template (fun _ => 5) "2024-01-02" guardedStore
      (by decide)⟩

/-- C5. Re-running materialisation is a no-op: after one `syncDailyTasks(d)`, a
second `syncDailyTasks(d)` on the unchanged templates returns the store exactly
as the first call left it, whatever ids the clock and the random generator
would have supplied. -/
theorem syncDailyTasks_idempotent (newId newId' : Nat → ℚ) (d : String) (s : Store) :
    syncDailyTasks newId' d (syncDailyTasks newId d s) = syncDailyTasks newId d s := by
  rw [syncDailyTasks_eq newId d s, syncDailyTasks_eq newId' d]
  simp only
  rw [second_sync_finds_nothing newId d s]
  simp [mapNewTasks]

/-- C7. Generation respects recurrence and end date: for a date `d` that is a
calendar day in zero-padded `YYYY-MM-DD` form, every instance newly created by
`generateDailyTasks(d)` (its return value) or by `syncDailyTasks(d)` (what it
appends) is built from a stored template whose recurrence is absent or contains
the weekday index of `d`, and whose end date, when it is a zero-padded
`YYYY-MM-DD` string, is not an earlier calendar day than `d`. -/
theorem generation_respects_recurrence_and_endDate (newId newId' : Nat → ℚ) (d : String)
    (s : Store) (c : Nat × Nat × Nat) (hd : calendarDay d = some c) (i : Instance)
    (hi : i ∈ (generateDailyTasks newId d s).1 ∨
      i ∈ (syncDailyTasks newId' d s).tasks.drop s.tasks.length) :
    ∃ t ∈ s.mejoras, i = newTask i.id d t ∧
      (t.recurrence = none ∨ ∃ r, t.recurrence = some r ∧ dayOfWeek c ∈ r) ∧
      (∀ e ce, t.endDate = some e → isoFields e = some ce → ¬ dayBefore ce c) := by
  have key : ∀ l : List Template, (∀ t ∈ l, t ∈ s.mejoras ∧ passesFilters (getDay d) d t = true) →
      ∀ f : Nat → ℚ, i ∈ mapNewTasks f d 0 l →
      ∃ t ∈ s.mejoras, i = newTask i.id d t ∧
        (t.recurrence = none ∨ ∃ r, t.recurrence = some r ∧ dayOfWeek c ∈ r) ∧
        (∀ e ce, t.endDate = some e → isoFields e = some ce → ¬ dayBefore ce c) := by
    intro l hl f hmem
    obtain ⟨t, ht, j, hj⟩ := mem_mapNewTasks hmem
    refine ⟨t, (hl t ht).1, ?_, filters_sound hd (hl t ht).2⟩
    rw [hj]
    rfl
  rcases hi with hi | hi
  · apply key _ _ newId hi
    intro t ht
    exact ⟨(List.mem_filter.mp ht).1, (List.mem_filter.mp ht).2⟩
  · rw [syncDailyTasks_eq] at hi
    simp only [List.drop_left] at hi
    apply key _ _ newId' hi
    intro t ht
    obtain ⟨hmem, hmiss⟩ := List.mem_filter.mp ht
    refine ⟨hmem, ?_⟩
    unfold isMissing at hmiss
    split at hmiss
    · exact absurd hmiss Bool.false_ne_true
    · exact hmiss

/-- C7, at a concrete store: the instance generated on Monday 2024-01-01 for the
Monday-and-Tuesday template that ends on 2024-01-05. -/
theorem generation_respects_recurrence_and_endDate_witness :
    (calendarDay "2024-01-01" = some (2024, 1, 1) ∧
      (newTask 5 "2024-01-01" weeklyTemplate ∈
          (generateDailyTasks (fun _ => 5) "2024-01-01"
            { mejoras := [dailyTemplate, weeklyTemplate], tasks := [] }).1 ∨
        newTask 5 "2024-01-01" weeklyTemplate ∈
          (syncDailyTasks (fun _ => 5) "2024-01-01"
            { mejoras := [dailyTemplate, weeklyTemplate], tasks := [] }).tasks.drop
            ({ mejoras := [dailyTemplate, weeklyTemplate], tasks := [] } : Store).tasks.length)) ∧
    ∃ t ∈ ({ mejoras := [dailyTemplate, weeklyTemplate], tasks := [] } : Store).mejoras,
      newTask 5 "2024-01-01" weeklyTemplate
        = newTask (newTask 5 "2024-01-01" weeklyTemplate).id "2024-01-01" t ∧
      (t.recurrence = none ∨ ∃ r, t.recurrence = some r ∧ dayOfWeek (2024, 1, 1) ∈ r) ∧
      (∀ e ce, t.endDate = some e → isoFields e = some ce → ¬ dayBefore ce (2024, 1, 1)) :=
  ⟨⟨by decide, Or.inl (by decide)⟩,
    generation_respects_recurrence_and_endDate (fun _ => 5) (fun _ => 5) "2024-01-01"
      { mejoras := [dailyTemplate, weeklyTemplate], tasks := [] } (2024, 1, 1) (by decide)
      (newTask 5 "2024-01-01" weeklyTemplate) (Or.inl (by decide))⟩

/-- C8. `syncDailyTasks` materialises exactly the surviving templates: with
pairwise distinct template ids, `syncDailyTasks(d)` keeps the stored instances
unchanged and in order and appends a list `new` that holds exactly one instance
for each template that survives (no stored instance dated `d` with its id,
recurrence absent or containing the weekday of `d`, end date absent or
`d <= endDate`) and none for any other template; each new instance comes from a
surviving template and has its id as `templateId`, its title, limits and gain,
status `pending`, date `d` and `dateCompleted = null`. -/
theorem syncDailyTasks_materializes_survivors (newId : Nat → ℚ) (d : String) (s : Store)
    (hn : (s.mejoras.map fun t => t.id).Nodup) :
    ∃ new : List Instance,
      (syncDailyTasks newId d s).tasks = s.tasks ++ new ∧
      (syncDailyTasks newId d s).mejoras = s.mejoras ∧
      (∀ t ∈ s.mejoras, survives d s.tasks t → countFor t.id new = 1) ∧
      (∀ t ∈ s.mejoras, ¬ survives d s.tasks t → countFor t.id new = 0) ∧
      (∀ i ∈ new, ∃ t ∈ s.mejoras, survives d s.tasks t ∧
        i.templateId = t.id ∧ i.title = t.title ∧ i.limits = t.limits ∧ i.gain = t.gain ∧
        i.status = "pending" ∧ i.date = d ∧ i.dateCompleted = none) := by
  refine ⟨mapNewTasks newId d 0 (s.mejoras.filter
    (isMissing (s.tasks.filter fun t => decide (t.date = d)) (getDay d) d)), ?_, ?_, ?_, ?_, ?_⟩
  · rw [syncDailyTasks_eq]
  · rw [syncDailyTasks_eq]
  · intro t ht hsurv
    rw [countFor_mapNewTasks, length_filter_filter_id s.mejoras hn _ t ht,
      (isMissing_iff d s.tasks t).mpr hsurv]
    rfl
  · intro t ht hsurv
    rw [countFor_mapNewTasks, length_filter_filter_id s.mejoras hn _ t ht]
    have : isMissing (s.tasks.filter fun t => decide (t.date = d)) (getDay d) d t = false := by
      cases h : isMissing (s.tasks.filter fun t => decide (t.date = d)) (getDay d) d t with
      | false => rfl
      | true => exact absurd ((isMissing_iff d s.tasks t).mp h) hsurv
    rw [this]
    rfl
  · intro i hi
    obtain ⟨t, ht, j, hj⟩ := mem_mapNewTasks hi
    obtain ⟨hmem, hmiss⟩ := List.mem_filter.mp ht
    refine ⟨t, hmem, (isMissing_iff d s.tasks t).mp hmiss, ?_⟩
    rw [hj]
    simp [newTask]

/-- C8, at a concrete store: two templates with ids 10 and 11 and one stored
task of another day, synchronised for Monday 2024-01-01. -/
theorem syncDailyTasks_materializes_survivors_witness :
    (({ mejoras := [dailyTemplate, weeklyTemplate], tasks := [windowTask] } :
        Store).mejoras.map fun t => t.id).Nodup ∧
    ∃ new : List Instance,
      (syncDailyTasks (fun _ => 5) "2024-01-01"
        { mejoras := [dailyTemplate, weeklyTemplate], tasks := [windowTask] }).tasks
        = ({ mejoras := [dailyTemplate, weeklyTemplate], tasks := [windowTask] } :
            Store).tasks ++ new ∧
      (syncDailyTasks (fun _ => 5) "2024-01-01"
        { mejoras := [dailyTemplate, weeklyTemplate], tasks := [windowTask] }).mejoras
        = ({ mejoras := [dailyTemplate, weeklyTemplate], tasks := [windowTask] } :
            Store).mejoras ∧
      (∀ t ∈ ({ mejoras := [dailyTemplate, weeklyTemplate], tasks := [windowTask] } :
            Store).mejoras,
        survives "2024-01-01"
          ({ mejoras := [dailyTemplate, weeklyTemplate], tasks := [windowTask] } :
            Store).tasks t → countFor t.id new = 1) ∧
      (∀ t ∈ ({ mejoras := [dailyTemplate, weeklyTemplate], tasks := [windowTask] } :
            Store).mejoras,
        ¬ survives "2024-01-01"
          ({ mejoras := [dailyTemplate, weeklyTemplate], tasks := [windowTask] } :
            Store).tasks t → countFor t.id new = 0) ∧
      (∀ i ∈ new,
        ∃ t ∈ ({ mejoras := [dailyTemplate, weeklyTemplate], tasks := [windowTask] } :
            Store).mejoras,
          survives "2024-01-01"
            ({ mejoras := [dailyTemplate, weeklyTemplate], tasks := [windowTask] } :
              Store).tasks t ∧
          i.templateId = t.id ∧ i.title = t.title ∧ i.limits = t.limits ∧ i.gain = t.gain ∧
          i.status = "pending" ∧ i.date = "2024-01-01" ∧ i.dateCompleted = none) :=
  ⟨by decide,
    syncDailyTasks_materializes_survivors (fun _ => 5) "2024-01-01"
      { mejoras := [dailyTemplate, weeklyTemplate], tasks := [windowTask] } (by decide)⟩

/-! ## Templates: deletion, ids, missing records -/

/-- C13. Deleting a template preserves history and stops generation:
`deleteMejora(id)` (and `handleDeleteMejora`, which calls it) leaves the task
collection exactly as it was, and afterwards, for every date `d`, neither the
tasks returned by `generateDailyTasks(d)` nor the tasks appended by
`syncDailyTasks(d)` contain one whose `templateId` is `id`. -/
theorem deleteMejora_keeps_history_and_stops_generation (id : Nat) (s : Store)
    (newId : Nat → ℚ) (d : String) :
    (deleteMejora id s).tasks = s.tasks ∧
    (handleDeleteMejora id s).tasks = s.tasks ∧
    id ∉ (generateDailyTasks newId d (deleteMejora id s)).1.map (fun i => i.templateId) ∧
    id ∉ ((syncDailyTasks newId d (deleteMejora id s)).tasks.drop
      (deleteMejora id s).tasks.length).map (fun i => i.templateId) := by
  refine ⟨rfl, rfl, ?_, ?_⟩
  · intro h
    obtain ⟨i, hi, hid⟩ := List.mem_map.mp h
    obtain ⟨t, ht, hti⟩ := mem_generate_templateId hi
    exact deleteMejora_no_id id s t ht (by rw [← hti, hid])
  · intro h
    obtain ⟨i, hi, hid⟩ := List.mem_map.mp h
    obtain ⟨t, ht, hti⟩ := mem_sync_templateId hi
    exact deleteMejora_no_id id s t ht (by rw [← hti, hid])

/-- C14, the code where the claim fails: `addMejora` takes the reading of
`Date.now()` as the id. A reading equal to a stored id is assigned again, and
the two `addMejora` calls of `seedDefaults`, when they fall in the same
millisecond, store two templates with the same id. -/
theorem addMejora_repeats_id_within_a_millisecond :
    (({ mejoras := [dailyTemplate], tasks := [] } : Store).mejoras.map fun t => t.id).Nodup ∧
    (addMejora 10 libroData { mejoras := [dailyTemplate], tasks := [] }).1.id
      = dailyTemplate.id ∧
    (seedDefaults 1700000000000 1700000000000 (fun _ => 1) "2024-01-01"
      { mejoras := [], tasks := [] }).mejoras.map (fun t => t.id)
      = [1700000000000, 1700000000000] ∧
    ¬ ((seedDefaults 1700000000000 1700000000000 (fun _ => 1) "2024-01-01"
      { mejoras := [], tasks := [] }).mejoras.map fun t => t.id).Nodup := by
  decide

/-- C15. Missing records are handled without failure: when no template carries
`id`, `getMejora(id)` returns `undefined` and `updateMejora(id, data)` leaves
the store as it was; when no task carries `taskId`,
`updateTaskStatus(taskId, status, date)` leaves the store as it was. The three
operations are total functions: there is no input on which they raise. -/
theorem missing_records_are_handled (s : Store) (id : Nat) (data : MejoraData)
    (taskId : ℚ) (status dateStr : String)
    (hid : ∀ t ∈ s.mejoras, t.id ≠ id) (htask : ∀ i ∈ s.tasks, i.id ≠ taskId) :
    getMejora id s = none ∧
    updateMejora id data s = s ∧
    updateTaskStatus taskId status dateStr s = s := by
  refine ⟨find?_id_none s.mejoras id hid, ?_, ?_⟩
  · unfold updateMejora getMejoras
    simp only [findIdx?_id_none s.mejoras id hid]
  · unfold updateTaskStatus
    simp only [find?_task_none s.tasks taskId htask]

/-- C15, at a concrete store: template 10 and task 1 are stored, template 99 and
task 99 are asked for. -/
theorem missing_records_are_handled_witness :
    ((∀ t ∈ ({ mejoras := [dailyTemplate], tasks := [pendingTask] } : Store).mejoras,
        t.id ≠ 99) ∧
      (∀ i ∈ ({ mejoras := [dailyTemplate], tasks := [pendingTask] } : Store).tasks,
        i.id ≠ 99)) ∧
    (getMejora 99 { mejoras := [dailyTemplate], tasks := [pendingTask] } = none ∧
    updateMejora 99 libroData { mejoras := [dailyTemplate], tasks := [pendingTask] }
      = { mejoras := [dailyTemplate], tasks := [pendingTask] } ∧
    updateTaskStatus 99 "completed" "2024-01-01"
      { mejoras := [dailyTemplate], tasks := [pendingTask] }
      = { mejoras := [dailyTemplate], tasks := [pendingTask] }) :=
  ⟨⟨by decide, by decide⟩,
    missing_records_are_handled { mejoras := [dailyTemplate], tasks := [pendingTask] } 99
      libroData 99 "completed" "2024-01-01" (by decide) (by decide)⟩

/-! ## Reading limits: `parseEndTime` -/

/-- C11 fails as stated: `10:00h` is not two decimal numerals separated by a
colon, yet `parseInt` reads its pieces as 10 and 0, and the pending task dated
today is failed at 10:05. -/
theorem loose_limit_is_applied :
    looseTask.status = "pending" ∧ looseTask.date = "2024-01-02" ∧
    looseTask.limits = "10:00h" ∧
    parseEndTime "10:00h" = some (some 600) ∧
    (checkTaskLimits "2024-01-02" 605 { mejoras := [], tasks := [looseTask] }).tasks.map
      (fun i => i.status) = ["failed"] := by
  decide

/-- C11 as amended: limits that `parseEndTime` cannot read fail open. Every
task whose limits is the sentinel `Sin límite`, the empty string, a string
without any colon, or a string with one colon one of whose two pieces
`parseInt` reads as `NaN`, is left as it is by `checkTaskLimits` at every
current time; and `parseEndTime` is total: on every string it returns `null`,
`NaN` or an integer, it never throws. -/
theorem unreadable_limits_fail_open (today : String) (currentTimeVal : Nat) (s : Store)
    (k : Nat) (t : Instance) (hk : s.tasks[k]? = some t)
    (hlim : t.limits = "Sin límite" ∨ t.limits = "" ∨ t.limits.toList.count ':' = 0 ∨
      ∃ h m, splitColon t.limits.toList = [h, m] ∧ (parseInt h = none ∨ parseInt m = none)) :
    (checkTaskLimits today currentTimeVal s).tasks[k]? = some t ∧
    ∀ limitStr, parseEndTime limitStr = none ∨ parseEndTime limitStr = some none ∨
      ∃ v, parseEndTime limitStr = some (some v) := by
  constructor
  · rw [checkTaskLimits_eq]
    simp [List.getElem?_map, hk, checkLimitOne,
      isOverLimit_false_of_unreadable today currentTimeVal t hlim]
  · intro limitStr
    rcases parseEndTime limitStr with _ | _ | v
    · exact Or.inl rfl
    · exact Or.inr (Or.inl rfl)
    · exact Or.inr (Or.inr ⟨v, rfl⟩)

/-- C11 as amended, at a concrete store: the limit `a las 10:00` has one colon
and a first piece without a leading digit; the task stays pending at 23:59. -/
theorem unreadable_limits_fail_open_witness :
    (({ mejoras := [], tasks := [wordyTask] } : Store).tasks[0]? = some wordyTask ∧
      (wordyTask.limits = "Sin límite" ∨ wordyTask.limits = "" ∨
        wordyTask.limits.toList.count ':' = 0 ∨
        ∃ h m, splitColon wordyTask.limits.toList = [h, m] ∧
          (parseInt h = none ∨ parseInt m = none))) ∧
    ((checkTaskLimits "2024-01-02" 1439 { mejoras := [], tasks := [wordyTask] }).tasks[0]?
        = some wordyTask ∧
      ∀ limitStr, parseEndTime limitStr = none ∨ parseEndTime limitStr = some none ∨
        ∃ v, parseEndTime limitStr = some (some v)) :=
  ⟨⟨by decide,
      Or.inr (Or.inr (Or.inr ⟨"a las 10".toList, "00".toList, by decide, Or.inl (by decide)⟩))⟩,
    unreadable_limits_fail_open "2024-01-02" 1439 { mejoras := [], tasks := [wordyTask] } 0
      wordyTask (by decide)
      (Or.inr (Or.inr (Or.inr
        ⟨"a las 10".toList, "00".toList, by decide, Or.inl (by decide)⟩)))⟩

/-- C16. Single-time limits are parsed and applied with a strict comparison:
for an hour `h` below 24 and a minute `m` below 60, `parseEndTime` of the
zero-padded string `hh:mm` is `h * 60 + m`, and a pending instance dated today
with that limit becomes the same instance with status `failed` when the current
minute of the day is strictly greater than `h * 60 + m` and is left as it is
otherwise, so also at the limit minute itself. -/
theorem single_time_limit_is_strict (h m : Nat) (hh : h < 24) (hm : m < 60)
    (today : String) (currentTimeVal : Nat) (s : Store)
    (k : Nat) (t : Instance) (hk : s.tasks[k]? = some t)
    (hdate : t.date = today) (hpending : t.status = "pending")
    (hlim : t.limits = hhmm h m) :
    parseEndTime (hhmm h m) = some (some ((h : Int) * 60 + m)) ∧
    (checkTaskLimits today currentTimeVal s).tasks[k]?
      = some (if h * 60 + m < currentTimeVal then { t with status := "failed" } else t) ∧
    (((checkTaskLimits today currentTimeVal s).tasks[k]?).map (fun i => i.status)
      = some "failed" ↔ h * 60 + m < currentTimeVal) := by
  have hp := parseEndTime_hhmm h m hh hm
  have hover : isOverLimit today currentTimeVal t = decide (h * 60 + m < currentTimeVal) := by
    unfold isOverLimit
    rw [hlim, hp]
    have hns : decide (hhmm h m = "Sin límite") = false :=
      decide_eq_false (hhmm_ne_sentinel h m)
    have hcmp : decide ((h : Int) * 60 + m < (currentTimeVal : Int))
        = decide (h * 60 + m < currentTimeVal) := by
      by_cases hlt : h * 60 + m < currentTimeVal
      · rw [decide_eq_true hlt, decide_eq_true (by omega)]
      · rw [decide_eq_false hlt, decide_eq_false (by omega)]
    simp only [hdate, hpending, hns, hcmp, decide_True, Bool.not_false, Bool.and_self,
      Bool.true_and]
  have hres : (checkTaskLimits today currentTimeVal s).tasks[k]?
      = some (if h * 60 + m < currentTimeVal then { t with status := "failed" } else t) := by
    rw [checkTaskLimits_eq]
    simp only [List.getElem?_map, hk, Option.map_some', checkLimitOne, hover,
      decide_eq_true_eq]
  refine ⟨hp, hres, ?_⟩
  rw [hres]
  by_cases hlt : h * 60 + m < currentTimeVal
  · simp [hlt]
  · simp [hlt, hpending]

/-- C16, at a concrete store: the limit `10:00` at minute 600, the limit minute
itself, where the task stays pending. -/
theorem single_time_limit_is_strict_witness :
    ((10 < 24 ∧ 0 < 60) ∧
      ({ mejoras := [], tasks := [pendingTask] } : Store).tasks[0]? = some pendingTask ∧
      pendingTask.date = "2024-01-01" ∧ pendingTask.status = "pending" ∧
      pendingTask.limits = hhmm 10 0) ∧
    (parseEndTime (hhmm 10 0) = some (some (((10 : Nat) : Int) * 60 + ((0 : Nat) : Int))) ∧
    (checkTaskLimits "2024-01-01" 600 { mejoras := [], tasks := [pendingTask] }).tasks[0]?
      = some (if 10 * 60 + 0 < 600 then { pendingTask with status := "failed" }
          else pendingTask) ∧
    (((checkTaskLimits "2024-01-01" 600 { mejoras := [], tasks := [pendingTask] }).tasks[0]?).map
        (fun i => i.status) = some "failed" ↔ 10 * 60 + 0 < 600)) :=
  ⟨⟨⟨by decide, by decide⟩, by decide, by decide, by decide, by decide⟩,
    single_time_limit_is_strict 10 0 (by decide) (by decide) "2024-01-01" 600
      { mejoras := [], tasks := [pendingTask] } 0 pendingTask (by decide) (by decide)
      (by decide) (by decide)⟩

/-! ## Statistics -/

/-- C12 fails as stated: the source adds doubles, and each addition rounds. With
completed gains 1 and 0.005 (stored as the double nearest to it, slightly above
0.005) the exact sum is nearer to 1.01 than to 1.00, yet `getStats` returns
1.00, because the double sum is slightly below 1.005. -/
theorem getStats_rounds_each_addition :
    toDouble (5 / 1000) = .num smallGainTask.gain ∧
    completedTask.status = "completed" ∧ smallGainTask.status = "completed" ∧
    (([completedTask, smallGainTask].filter fun t => decide (t.status = "completed")).map
      fun t => t.gain).sum = 1 + smallGainTask.gain ∧
    (getStats "2024-01-02"
      { mejoras := [], tasks := [completedTask, smallGainTask] }).1.totalGain = .num 1 ∧
    |(101 : ℚ) / 100 - (1 + smallGainTask.gain)| < 1 / 200 ∧
    1 / 200 < |(1 : ℚ) - (1 + smallGainTask.gain)| := by
  refine ⟨toDouble_five_thousandths, rfl, rfl, ?_, getStats_small_gain, ?_, ?_⟩
  · have hfilter : ([completedTask, smallGainTask].filter
        fun t => decide (t.status = "completed")) = [completedTask, smallGainTask] := rfl
    rw [hfilter]
    simp [completedTask]
  · rw [abs_lt]
    constructor <;> norm_num [smallGainTask]
  · rw [lt_abs]
    right
    norm_num [smallGainTask]

/-- C12 as amended: `getStats(today)` only reads the store. When every completed
gain is a whole multiple of 0.25 (a double with at most two decimals) and the
magnitudes of the completed gains add up to less than `2^51`, every addition is
exact: `totalGain` is the sum of `gain` over the completed tasks and
`todayGain` the sum over the completed tasks dated `today`, and both sums are
whole numbers of hundredths, so rounding to two decimals leaves them as they
are. For a completed task of today with gain 1 and a completed task of the day
before with gain 2 it returns 3 and 1. -/
theorem getStats_exact_on_quarter_gains (todayStr : String) (s : Store) :
    (getStats todayStr s).2 = s ∧
    ((∀ t ∈ s.tasks, t.status = "completed" → ∃ k : ℤ, t.gain = (k : ℚ) / 4) →
      ((s.tasks.filter fun t => decide (t.status = "completed")).map
        fun t => |t.gain|).sum < 2 ^ 51 →
      (getStats todayStr s).1.totalGain
        = .num ((s.tasks.filter fun t => decide (t.status = "completed")).map
            fun t => t.gain).sum ∧
      (getStats todayStr s).1.todayGain
        = .num ((s.tasks.filter fun t =>
            decide (t.status = "completed" ∧ t.date = todayStr)).map fun t => t.gain).sum ∧
      (∃ n : ℤ, ((s.tasks.filter fun t => decide (t.status = "completed")).map
          fun t => t.gain).sum = (n : ℚ) / 100) ∧
      (∃ n : ℤ, ((s.tasks.filter fun t =>
          decide (t.status = "completed" ∧ t.date = todayStr)).map fun t => t.gain).sum
            = (n : ℚ) / 100)) ∧
    (getStats "2024-01-02"
      { mejoras := [], tasks := [completedTask, completedYesterday] }).1.totalGain = .num 3 ∧
    (getStats "2024-01-02"
      { mejoras := [], tasks := [completedTask, completedYesterday] }).1.todayGain
        = .num 1 := by
  have hpred : (fun t : Instance => decide (t.status = "completed" ∧ t.date = todayStr))
      = (fun t => decide (t.status = "completed") && decide (t.date = todayStr)) := by
    funext t
    exact Bool.decide_and _ _
  refine ⟨rfl, ?_, ?_, ?_⟩
  · intro hq hb
    have hq1 : ∀ t ∈ s.tasks.filter (fun t => decide (t.status = "completed")),
        ∃ k : ℤ, t.gain = (k : ℚ) / 4 := by
      intro t ht
      obtain ⟨hmem, hst⟩ := List.mem_filter.mp ht
      exact hq t hmem (by simpa using hst)
    have hq2 : ∀ t ∈ s.tasks.filter
        (fun t => decide (t.status = "completed") && decide (t.date = todayStr)),
        ∃ k : ℤ, t.gain = (k : ℚ) / 4 := by
      intro t ht
      obtain ⟨hmem, hst⟩ := List.mem_filter.mp ht
      simp only [Bool.and_eq_true, decide_eq_true_eq] at hst
      exact hq t hmem hst.1
    have hb2 : ((s.tasks.filter
        fun t => decide (t.status = "completed") && decide (t.date = todayStr)).map
        fun t => |t.gain|).sum < 2 ^ 51 :=
      lt_of_le_of_lt (sum_abs_gain_filter_and_le s.tasks _ _) hb
    rw [hpred]
    refine ⟨stat_of_quarter_gains _ hq1 hb, stat_of_quarter_gains _ hq2 hb2, ?_, ?_⟩
    · obtain ⟨k, hk⟩ := sum_gain_quarter _ hq1
      exact ⟨25 * k, by rw [hk]; push_cast; ring⟩
    · obtain ⟨k, hk⟩ := sum_gain_quarter _ hq2
      exact ⟨25 * k, by rw [hk]; push_cast; ring⟩
  · show toFixed2 (List.foldl (fun sum t => jsAdd sum (toDouble t.gain)) (.num 0)
      ([completedTask, completedYesterday].filter
        fun t => decide (t.status = "completed"))) = _
    have hfilter : ([completedTask, completedYesterday].filter
        fun t => decide (t.status = "completed")) = [completedTask, completedYesterday] := rfl
    rw [hfilter, stat_of_quarter_gains]
    · congr 1
      norm_num [completedTask, completedYesterday]
    · intro t ht
      simp only [List.mem_cons, List.mem_singleton, List.not_mem_nil, or_false] at ht
      rcases ht with rfl | rfl
      · exact ⟨4, by norm_num [completedTask]⟩
      · exact ⟨8, by norm_num [completedYesterday]⟩
    · norm_num [completedTask, completedYesterday]
  · show toFixed2 (List.foldl (fun sum t => jsAdd sum (toDouble t.gain)) (.num 0)
      ([completedTask, completedYesterday].filter
        fun t => decide (t.status = "completed") && decide (t.date = "2024-01-02"))) = _
    have hfilter : ([completedTask, completedYesterday].filter
        fun t => decide (t.status = "completed") && decide (t.date = "2024-01-02"))
        = [completedTask] := rfl
    rw [hfilter, stat_of_quarter_gains]
    · congr 1
      norm_num [completedTask]
    · intro t ht
      simp only [List.mem_singleton] at ht
      subst ht
      exact ⟨4, by norm_num [completedTask]⟩
    · norm_num [completedTask]

end Dashboard
